import Mathlib

/-!
Verification of the model-output evaluation engine and the training progress
monitor of the OrbPro2-MCP repository (`src/training/finetune/evaluate.py` and
`src/training/train_progress.py`).

The Python code is shallowly embedded: JSON values are an inductive type with
exact rational numbers in place of IEEE floats, Python exceptions are an
explicit `Except` layer, and the handful of regular expressions in the source
are implemented directly as deterministic scanners that mirror the
backtracking behaviour of the concrete patterns used.  Recursive parsers are
written with an explicit fuel argument (structural recursion on `Nat`) so that
every definition evaluates inside the kernel.

Representation choices, documented once here:
* JSON objects (Python dicts) are kept as key-sorted association lists with
  duplicate keys collapsed (last occurrence wins, as in `json.loads`).  The
  evaluation code only observes dicts through key lookup, key membership,
  truthiness, and equality, and Python dict equality is order-insensitive, so
  the sorted canonical form is observation-equivalent.
* The coordinate error of `compare_coordinates` is `((exp_lon - pred_lon)**2 +
  (exp_lat - pred_lat)**2) ** 0.5`.  We store the squared distance (an exact
  rational); taking the square root is a strictly monotone bijection on the
  nonnegative reals, so presence or absence of the value and every claim about
  a concrete error value `v` translate to the stored value being `v^2`.
-/

/-- Python exceptions that the embedded code can raise. -/
inductive PyErr where
  | attributeError
  | typeError
  | valueError
  | zeroDivisionError
  | keyError
deriving DecidableEq, Repr

/-- Exact decimal number: the value `m / 10 ^ e`.  All numbers appearing in
this code (JSON literals, `float()` conversions, coordinate arithmetic) are
decimal, so this represents them exactly; constructors always go through
`DecNum.normTrail`, which removes trailing factors of ten, making the
representation canonical (value equality coincides with structural equality).
Rationals (`ℚ`) appear only in specification statements, through
`DecNum.toRat`, because concrete `Rat` arithmetic does not reduce in the
kernel. -/
structure DecNum where
  m : Int
  e : Nat
deriving DecidableEq, Repr

/-- Remove trailing factors of ten from `m / 10 ^ e` (canonical form). -/
def normTrailAux : Int → Nat → DecNum
  | m, 0 => ⟨m, 0⟩
  | m, e + 1 => if m % 10 = 0 then normTrailAux (m / 10) e else ⟨m, e + 1⟩

/-- Canonicalize a mantissa/exponent pair. -/
def DecNum.normTrail (m : Int) (e : Nat) : DecNum := normTrailAux m e

/-- Rational value of a decimal number (specification view). -/
def DecNum.toRat (d : DecNum) : ℚ := (d.m : ℚ) / 10 ^ d.e

/-- Integer as a decimal number. -/
def DecNum.ofInt (m : Int) : DecNum := ⟨m, 0⟩

/-- Combine two decimal numbers pointwise on aligned mantissas (used for
addition and subtraction), renormalizing the result. -/
def DecNum.combine (f : Int → Int → Int) (a b : DecNum) : DecNum :=
  let e := max a.e b.e
  DecNum.normTrail (f (a.m * 10 ^ (e - a.e)) (b.m * 10 ^ (e - b.e))) e

/-- Exact decimal subtraction. -/
def DecNum.sub (a b : DecNum) : DecNum := DecNum.combine (· - ·) a b

/-- Exact decimal addition. -/
def DecNum.add (a b : DecNum) : DecNum := DecNum.combine (· + ·) a b

/-- Exact decimal multiplication. -/
def DecNum.mul (a b : DecNum) : DecNum := DecNum.normTrail (a.m * b.m) (a.e + b.e)

/-- Decoded JSON values (the result type of `json.loads`).  Numbers are exact
decimals; JSON integers and floats are conflated exactly as Python's `==` and
`float()` conflate them.  Objects are key-sorted association lists (see module
comment). -/
inductive JValue where
  | null
  | bool (b : Bool)
  | num (d : DecNum)
  | str (s : String)
  | arr (elems : List JValue)
  | obj (fields : List (String × JValue))

/-- Python truthiness (`bool(x)`) of a decoded JSON value: `None`, `False`,
`0`, `""`, `[]` and `{}` are falsy, everything else truthy. -/
def JValue.truthy : JValue → Bool
  | .null => false
  | .bool b => b
  | .num d => d.m != 0
  | .str s => s != ""
  | .arr xs => !xs.isEmpty
  | .obj fs => !fs.isEmpty

/-- Whitespace stripped by Python's `str.strip()` (ASCII part; the source
never feeds other Unicode whitespace to `strip`). -/
def pyWs (c : Char) : Bool :=
  c = ' ' || c = '\t' || c = '\n' || c = '\r' || c = '\x0c' || c = '\x0b'

/-- Model of `str.strip()` on a character list. -/
def pyStrip (cs : List Char) : List Char :=
  ((cs.dropWhile pyWs).reverse.dropWhile pyWs).reverse

/-- Whitespace accepted between tokens by the JSON grammar. -/
def jsonWs (c : Char) : Bool :=
  c = ' ' || c = '\t' || c = '\n' || c = '\r'

/-- Skip JSON inter-token whitespace. -/
def skipWs (cs : List Char) : List Char := cs.dropWhile jsonWs

/-- Numeric value of a list of decimal digit characters. -/
def digitsToNat (ds : List Char) : Nat :=
  ds.foldl (fun n c => 10 * n + (c.toNat - 48)) 0

/-- Parse a JSON number literal (`-? (0 | [1-9][0-9]*) frac? exp?`) at the
head of the input, returning its exact rational value and the rest of the
input.  (Python's `json.loads` additionally accepts `NaN`/`Infinity`, which
never occur in this repository's data and are not modelled.) -/
def parseNum (cs : List Char) : Option (JValue × List Char) :=
  let signed := match cs with
    | '-' :: r => (true, r)
    | _ => (false, cs)
  let neg := signed.1
  let r0 := signed.2
  let ipart : Option (List Char × List Char) := match r0 with
    | '0' :: r => some (['0'], r)
    | c :: _ =>
      if c.isDigit && c ≠ '0' then
        some (r0.takeWhile Char.isDigit, r0.dropWhile Char.isDigit)
      else none
    | [] => none
  match ipart with
  | none => none
  | some (ids, r1) =>
    let fpart : List Char × List Char := match r1 with
      | '.' :: r =>
        let ds := r.takeWhile Char.isDigit
        if ds.isEmpty then ([], r1) else (ds, r.dropWhile Char.isDigit)
      | _ => ([], r1)
    let fds := fpart.1
    let r2 := fpart.2
    let epart : Int × List Char := match r2 with
      | c :: r =>
        if c = 'e' || c = 'E' then
          let se : Int × List Char := match r with
            | '+' :: t => (1, t)
            | '-' :: t => (-1, t)
            | _ => (1, r)
          let ds := se.2.takeWhile Char.isDigit
          if ds.isEmpty then (0, r2)
          else (se.1 * (digitsToNat ds : Int), se.2.dropWhile Char.isDigit)
        else (0, r2)
      | [] => (0, r2)
    let ex := epart.1
    let r3 := epart.2
    let mant : Int := (if neg then -1 else 1) * (digitsToNat (ids ++ fds) : Int)
    let fe : Int := (fds.length : Int) - ex
    let d : DecNum :=
      if fe ≤ 0 then DecNum.normTrail (mant * 10 ^ (-fe).toNat) 0
      else DecNum.normTrail mant fe.toNat
    some (.num d, r3)

/-- Hexadecimal value of a character, if any. -/
def hexVal (c : Char) : Option Nat :=
  if '0' ≤ c ∧ c ≤ '9' then some (c.toNat - 48)
  else if 'a' ≤ c ∧ c ≤ 'f' then some (c.toNat - 87)
  else if 'A' ≤ c ∧ c ≤ 'F' then some (c.toNat - 55)
  else none

/-- Parse the body of a JSON string literal (the opening quote already
consumed), handling the standard escape sequences.  Unescaped control
characters are rejected, as in strict-mode `json.loads`. -/
def parseStr : Nat → List Char → Option (String × List Char)
  | 0, _ => none
  | fuel + 1, cs =>
    match cs with
    | '"' :: r => some ("", r)
    | '\\' :: e :: r =>
      let cont (c : Char) (rest : List Char) : Option (String × List Char) :=
        (parseStr fuel rest).map fun sr => (String.mk (c :: sr.1.data), sr.2)
      match e with
      | '"' => cont '"' r
      | '\\' => cont '\\' r
      | '/' => cont '/' r
      | 'b' => cont (Char.ofNat 8) r
      | 'f' => cont (Char.ofNat 12) r
      | 'n' => cont '\n' r
      | 'r' => cont '\r' r
      | 't' => cont '\t' r
      | 'u' =>
        match r with
        | h1 :: h2 :: h3 :: h4 :: r2 =>
          match hexVal h1, hexVal h2, hexVal h3, hexVal h4 with
          | some a, some b, some c, some d =>
            cont (Char.ofNat (((a * 16 + b) * 16 + c) * 16 + d)) r2
          | _, _, _, _ => none
        | _ => none
      | _ => none
    | c :: r =>
      if c.toNat < 32 then none
      else (parseStr fuel r).map fun sr => (String.mk (c :: sr.1.data), sr.2)
    | [] => none

/-- Lexicographic comparison of character lists by Unicode code point, which
is exactly how Python compares strings. -/
def charsLt : List Char → List Char → Bool
  | [], [] => false
  | [], _ :: _ => true
  | _ :: _, [] => false
  | a :: as, b :: bs =>
    if a.toNat < b.toNat then true
    else if b.toNat < a.toNat then false
    else charsLt as bs

/-- Strict lexicographic order on strings (Python `<` on `str`). -/
def strLt (a b : String) : Bool := charsLt a.data b.data

/-- Reflexive lexicographic order on strings (Python `<=` on `str`). -/
def strLe (a b : String) : Bool := a == b || strLt a b

/-- Insert a key/value pair into a key-sorted association list, replacing an
existing binding for the same key (Python dict assignment; see module comment
for why the canonical sorted form is used). -/
def insertKey : List (String × JValue) → String → JValue → List (String × JValue)
  | [], k, v => [(k, v)]
  | (k', v') :: rest, k, v =>
    if k = k' then (k, v) :: rest
    else if strLt k k' then (k, v) :: (k', v') :: rest
    else (k', v') :: insertKey rest k v

/-- Work items of the JSON parser: a value to parse, or the continuation of an
object / array body.  The flag records whether a closing bracket is still
allowed (it is not immediately after a comma). -/
inductive PJob where
  | pval (cs : List Char)
  | pobj (cs : List Char) (acc : List (String × JValue)) (first : Bool)
  | parr (cs : List Char) (acc : List JValue) (first : Bool)

/-- Fueled recursive-descent JSON parser implementing the `json.loads`
grammar.  Returns the parsed value and the unconsumed input. -/
def parseF : Nat → PJob → Option (JValue × List Char)
  | 0, _ => none
  | fuel + 1, .pval cs =>
    match cs with
    | 'n' :: 'u' :: 'l' :: 'l' :: r => some (.null, r)
    | 't' :: 'r' :: 'u' :: 'e' :: r => some (.bool true, r)
    | 'f' :: 'a' :: 'l' :: 's' :: 'e' :: r => some (.bool false, r)
    | '"' :: r => (parseStr (r.length + 1) r).map fun sr => (.str sr.1, sr.2)
    | '{' :: r => parseF fuel (.pobj (skipWs r) [] true)
    | '[' :: r => parseF fuel (.parr (skipWs r) [] true)
    | _ => parseNum cs
  | fuel + 1, .pobj cs acc first =>
    match cs with
    | '}' :: r => if first then some (.obj acc, r) else none
    | '"' :: r =>
      match parseStr (r.length + 1) r with
      | none => none
      | some (k, r1) =>
        match skipWs r1 with
        | ':' :: r2 =>
          match parseF fuel (.pval (skipWs r2)) with
          | none => none
          | some (v, r3) =>
            let acc' := insertKey acc k v
            match skipWs r3 with
            | ',' :: r4 => parseF fuel (.pobj (skipWs r4) acc' false)
            | '}' :: r4 => some (.obj acc', r4)
            | _ => none
        | _ => none
    | _ => none
  | fuel + 1, .parr cs acc first =>
    match cs with
    | ']' :: r => if first then some (.arr acc.reverse, r) else none
    | _ =>
      match parseF fuel (.pval cs) with
      | none => none
      | some (v, r1) =>
        match skipWs r1 with
        | ',' :: r2 => parseF fuel (.parr (skipWs r2) (v :: acc) false)
        | ']' :: r2 => some (.arr (v :: acc).reverse, r2)
        | _ => none

/-- Model of `json.loads` on a character list: parse one JSON document and
require that only whitespace follows. -/
def jsonLoads (cs : List Char) : Option JValue :=
  match parseF (2 * cs.length + 8) (.pval (skipWs cs)) with
  | some (v, rest) => if (skipWs rest).isEmpty then some v else none
  | none => none

/-- Model of `json.loads` on a string. -/
def jsonLoadsStr (s : String) : Option JValue := jsonLoads s.data

example : jsonLoadsStr "null" = some .null := rfl
example : jsonLoadsStr " 42 " = some (.num ⟨42, 0⟩) := rfl
example : jsonLoadsStr "[1, 2]" = some (.arr [.num ⟨1, 0⟩, .num ⟨2, 0⟩]) := rfl
example : jsonLoadsStr "-1.5e1" = some (.num ⟨-15, 0⟩) := rfl
example : jsonLoadsStr "1.234" = some (.num ⟨1234, 3⟩) := rfl
example : jsonLoadsStr "01" = none := rfl
example : jsonLoadsStr "\x7b\x7d" = some (.obj []) := rfl
example :
    jsonLoadsStr "\x7b\"tool\": \"flyTo\", \"arguments\": \x7b\"longitude\": 10.0, \"latitude\": 20.0\x7d\x7d"
      = some (.obj [("arguments", .obj [("latitude", .num ⟨20, 0⟩), ("longitude", .num ⟨10, 0⟩)]),
                    ("tool", .str "flyTo")]) := rfl
example : jsonLoadsStr "not json at all" = none := rfl
example : jsonLoadsStr "\x7b\"a\": [true, false, null], \"a\": \"x\"\x7d"
      = some (.obj [("a", .str "x")]) := rfl

/-- Python `==` on decoded JSON values, fueled (the fuel is always instantiated
with a bound on the nesting depth).  It differs from structural equality in
that Python `bool` is a subtype of `int`: `True == 1` and `False == 0`; with
objects in canonical key-sorted form, dict equality is pointwise. -/
def pyEqF : Nat → JValue → JValue → Bool
  | 0, _, _ => false
  | fuel + 1, a, b =>
    match a, b with
    | .null, .null => true
    | .bool x, .bool y => x == y
    | .bool x, .num d => d == ⟨if x then 1 else 0, 0⟩
    | .num d, .bool y => d == ⟨if y then 1 else 0, 0⟩
    | .num d, .num d2 => d == d2
    | .str s, .str t => s == t
    | .arr xs, .arr ys =>
      xs.length == ys.length && (xs.zip ys).all fun p => pyEqF fuel p.1 p.2
    | .obj xs, .obj ys =>
      xs.length == ys.length &&
        (xs.zip ys).all fun p => p.1.1 == p.2.1 && pyEqF fuel p.1.2 p.2.2
    | _, _ => false

/-- First binding of a key in an association list (Python dict lookup; keys
are unique in the canonical form). -/
def alookup : List (String × JValue) → String → Option JValue
  | [], _ => none
  | (k, v) :: rest, key => if k = key then some v else alookup rest key

/-- Python `dict.get(key, default)`. -/
def jgetD (fs : List (String × JValue)) (k : String) (d : JValue) : JValue :=
  (alookup fs k).getD d

/-- Python `key in dict`. -/
def containsKey (fs : List (String × JValue)) (k : String) : Bool :=
  (alookup fs k).isSome

/-- Model of Python's `float()` applied to a string: strip whitespace, then
optional sign, digits with an optional single decimal point (digits required
on at least one side of the point), and an optional exponent.  (Python
additionally allows underscores and `inf`/`nan` spellings, never produced by
the code under analysis.)  Returns `none` where `float()` raises
`ValueError`. -/
def pyFloatChars (cs0 : List Char) : Option DecNum :=
  let cs := pyStrip cs0
  let sn : Bool × List Char := match cs with
    | '+' :: r => (false, r)
    | '-' :: r => (true, r)
    | _ => (false, cs)
  let neg := sn.1
  let r0 := sn.2
  let ds1 := r0.takeWhile Char.isDigit
  let r1 := r0.dropWhile Char.isDigit
  let fp : List Char × List Char := match r1 with
    | '.' :: r => (r.takeWhile Char.isDigit, r.dropWhile Char.isDigit)
    | _ => ([], r1)
  let ds2 := fp.1
  let r2 := fp.2
  if ds1.isEmpty && ds2.isEmpty then none
  else
    let mant : Int := (if neg then -1 else 1) * (digitsToNat (ds1 ++ ds2) : Int)
    let mk (ex : Int) : Option DecNum :=
      let fe : Int := (ds2.length : Int) - ex
      if fe ≤ 0 then some (DecNum.normTrail (mant * 10 ^ (-fe).toNat) 0)
      else some (DecNum.normTrail mant fe.toNat)
    match r2 with
    | [] => mk 0
    | c :: r3 =>
      if c = 'e' || c = 'E' then
        let se : Int × List Char := match r3 with
          | '+' :: t => (1, t)
          | '-' :: t => (-1, t)
          | _ => (1, r3)
        let eds := se.2.takeWhile Char.isDigit
        if eds.isEmpty then none
        else if (se.2.dropWhile Char.isDigit).isEmpty then
          mk (se.1 * (digitsToNat eds : Int))
        else none
      else none

/-- Model of Python's `float()` on a decoded JSON value: numbers pass through,
booleans become `1.0`/`0.0`, numeric strings are parsed, everything else
(`None`, lists, dicts, non-numeric strings) raises, modelled as `none` since
every call site catches `TypeError`/`ValueError`. -/
def pyFloat : JValue → Option DecNum
  | .num d => some d
  | .bool b => some ⟨if b then 1 else 0, 0⟩
  | .str s => pyFloatChars s.data
  | _ => none

/-- Characters other than curly braces (the `[^\x7b\x7d]` character class of
the extraction regexes). -/
def nonBrace (c : Char) : Bool := c ≠ '{' && c ≠ '}'

/-- Deterministic matcher for the tail of the first extraction pattern of
`parse_json_output`: the regex suffix `(\x7b[^\x7b\x7d]*\x7d[^\x7b\x7d]*)*\x7d`
(a greedy sequence of one-level brace groups followed by the closing brace).
Because the repeated group starts with a brace and the character class
excludes braces, backtracking can never rescue a failed attempt, so matching
is deterministic.  Returns the consumed characters and the rest. -/
def matchTail : Nat → List Char → Option (List Char × List Char)
  | 0, _ => none
  | fuel + 1, cs =>
    match cs with
    | [] => none
    | c :: rest =>
      if c = '}' then some (['}'], rest)
      else
        if c = '{' then
          let a := rest.takeWhile nonBrace
          match rest.dropWhile nonBrace with
          | c2 :: r2 =>
            if c2 = '}' then
              let b := r2.takeWhile nonBrace
              match matchTail fuel (r2.dropWhile nonBrace) with
              | some (m, rest2) => some ('{' :: a ++ '}' :: b ++ m, rest2)
              | none => none
            else none
          | [] => none
        else none

/-- Match the first extraction pattern (brace group with at most one level of
nested brace groups) anchored at the start of the input. -/
def match1At (cs : List Char) : Option (List Char × List Char) :=
  match cs with
  | [] => none
  | c :: rest =>
    if c = '{' then
      let a := rest.takeWhile nonBrace
      match matchTail (rest.length + 1) (rest.dropWhile nonBrace) with
      | some (m, r) => some ('{' :: a ++ m, r)
      | none => none
    else none

/-- Model of `re.findall` for the first (one-level nested) extraction
pattern: scan left to right, collecting non-overlapping matches. -/
def findMatches1 : Nat → List Char → List (List Char)
  | 0, _ => []
  | _ + 1, [] => []
  | fuel + 1, c :: cs =>
    if c = '{' then
      match match1At (c :: cs) with
      | some (m, rest) => m :: findMatches1 fuel rest
      | none => findMatches1 fuel cs
    else findMatches1 fuel cs

/-- Model of `re.findall` for the second, non-greedy extraction pattern
`\x7b.*?\x7d` under `re.DOTALL`: each match runs from a `\x7b` to the
nearest following `\x7d`. -/
def findMatches2 : Nat → List Char → List (List Char)
  | 0, _ => []
  | _ + 1, [] => []
  | fuel + 1, '{' :: cs =>
    match cs.dropWhile (fun c => c ≠ '}') with
    | '}' :: rest =>
      ('{' :: cs.takeWhile (fun c => c ≠ '}') ++ ['}']) :: findMatches2 fuel rest
    | _ => findMatches2 fuel cs
  | fuel + 1, _ :: cs => findMatches2 fuel cs

/-- Try `json.loads` on each candidate in order, returning the first
success (the inner loop of `parse_json_output`). -/
def firstParse : List (List Char) → Option JValue
  | [] => none
  | m :: ms =>
    match jsonLoads m with
    | some v => some v
    | none => firstParse ms

/-- Model of `parse_json_output` (evaluate.py lines 139-164): strip the text,
try a direct `json.loads`, then the one-level-nested brace pattern, then the
non-greedy brace pattern, returning the first successful parse, else `None`.
Note that the direct parse returns whatever `json.loads` produces, including
non-mapping values, despite the `Optional[dict]` annotation. -/
def parseJsonOutputL (cs : List Char) : Option JValue :=
  let t := pyStrip cs
  match jsonLoads t with
  | some v => some v
  | none =>
    match firstParse (findMatches1 (t.length + 1) t) with
    | some v => some v
    | none => firstParse (findMatches2 (t.length + 1) t)

/-- `parse_json_output` on a string. -/
def parse_json_output (s : String) : Option JValue := parseJsonOutputL s.data

example : parse_json_output "not json at all" = none := rfl
example :
    parse_json_output "Sure! \x7b\"tool\":\"flyTo\",\"arguments\":\x7b\"longitude\":10,\"latitude\":20\x7d\x7d Done."
      = some (.obj [("arguments", .obj [("latitude", .num ⟨20, 0⟩), ("longitude", .num ⟨10, 0⟩)]),
                    ("tool", .str "flyTo")]) := rfl
example : parse_json_output "[1, 2]" = some (.arr [.num ⟨1, 0⟩, .num ⟨2, 0⟩]) := rfl
example : parse_json_output "42" = some (.num ⟨42, 0⟩) := rfl
example : parse_json_output "junk \x7b\"a\": \x7b1\x7d \x7b\"b\": 2\x7d tail" = some (.obj [("b", .num ⟨2, 0⟩)]) := rfl

/-- Per-sample evaluation record (`EvalResult` dataclass in evaluate.py).
`coord_error` stores the squared distance, see the module comment. -/
structure EvalResult where
  instruction : String
  expected : String
  predicted : String
  tool_match : Bool
  json_valid : Bool
  coord_error : Option DecNum
  exact_match : Bool
deriving DecidableEq, Repr

/-- Python truthiness of an `Optional[...]` value (`None` is falsy). -/
def otruthy : Option JValue → Bool
  | none => false
  | some v => v.truthy

/-- Body of the `try` block of `compare_coordinates` after the two
`.get("arguments", \x7b\x7d)` calls.  Caught exceptions (`TypeError`,
`ValueError`, `KeyError`) collapse to `.ok none`, exactly as the handler
turns them into `return None`:
* a non-dict `expected_args` either fails the `in` test or raises a caught
  `TypeError` on the membership test or the subsequent indexing, so it always
  yields `None`;
* a failed `float()` on the expected side is caught before the predicted side
  is touched;
* `predicted_args.get` on a non-dict raises `AttributeError`, which the
  handler does not catch. -/
def coordBody (eargs pargs : JValue) : Except PyErr (Option DecNum) :=
  match eargs with
  | .obj efs =>
    if containsKey efs "longitude" && containsKey efs "latitude" then
      match pyFloat (jgetD efs "longitude" .null), pyFloat (jgetD efs "latitude" .null) with
      | some elon, some elat =>
        match pargs with
        | .obj pfs =>
          match pyFloat (jgetD pfs "longitude" (.num ⟨0, 0⟩)),
                pyFloat (jgetD pfs "latitude" (.num ⟨0, 0⟩)) with
          | some plon, some plat =>
            .ok (some (((elon.sub plon).mul (elon.sub plon)).add
                       ((elat.sub plat).mul (elat.sub plat))))
          | _, _ => .ok none
        | _ => .error .attributeError
      | _, _ => .ok none
    else .ok none
  | _ => .ok none

/-- Model of `compare_coordinates` (evaluate.py lines 167-186).  The two
`.get("arguments", \x7b\x7d)` calls raise an uncaught `AttributeError` when
the records themselves are not mappings; afterwards `coordBody` runs the
protected comparison.  The returned number is the squared distance (module
comment). -/
def compare_coordinates (expected predicted : JValue) : Except PyErr (Option DecNum) :=
  match expected with
  | .obj ef =>
    match predicted with
    | .obj pf => coordBody (jgetD ef "arguments" (.obj [])) (jgetD pf "arguments" (.obj []))
    | _ => .error .attributeError
  | _ => .error .attributeError

/-- Model of `evaluate_sample` (evaluate.py lines 189-225).  The tool and
coordinate comparisons are gated on the Python truthiness of the two parsed
values (so an extracted empty dict behaves like an extraction failure there),
and `.get` on a truthy non-dict raises an uncaught `AttributeError`.  The
`pyEqF` fuel is a bound on the nesting depth of the two parsed values: every
nesting level of a parsed value consumes at least one character of its source
text, so the sum of the text lengths strictly dominates both depths. -/
def evaluate_sample (expected_str predicted_str instruction : String) :
    Except PyErr EvalResult :=
  let expected_json := parse_json_output expected_str
  let predicted_json := parse_json_output predicted_str
  let json_valid := predicted_json.isSome
  let exact_match := pyStrip expected_str.data == pyStrip predicted_str.data
  if otruthy expected_json && otruthy predicted_json then
    match expected_json, predicted_json with
    | some (.obj ef), some (.obj pf) =>
      let fuel := expected_str.data.length + predicted_str.data.length + 2
      let tool_match := pyEqF fuel (jgetD ef "tool" .null) (jgetD pf "tool" .null)
      match compare_coordinates (.obj ef) (.obj pf) with
      | .ok coord_error =>
        .ok ⟨instruction, expected_str, predicted_str, tool_match, json_valid,
             coord_error, exact_match⟩
      | .error e => .error e
    | _, _ => .error .attributeError
  else
    .ok ⟨instruction, expected_str, predicted_str, false, json_valid, none, exact_match⟩

example :
    evaluate_sample "\x7b\"tool\":\"flyTo\",\"arguments\":\x7b\"longitude\":10.0,\"latitude\":20.0\x7d\x7d"
      "\x7b\"tool\":\"flyTo\",\"arguments\":\x7b\"longitude\":10.0,\"latitude\":20.0\x7d\x7d" "i"
    = .ok ⟨"i", "\x7b\"tool\":\"flyTo\",\"arguments\":\x7b\"longitude\":10.0,\"latitude\":20.0\x7d\x7d",
           "\x7b\"tool\":\"flyTo\",\"arguments\":\x7b\"longitude\":10.0,\"latitude\":20.0\x7d\x7d",
           true, true, some ⟨0, 0⟩, true⟩ := rfl

example :
    evaluate_sample "\x7b\"tool\":\"flyTo\",\"arguments\":\x7b\"longitude\":10.0,\"latitude\":20.0\x7d\x7d"
      "\x7b\"tool\":\"flyTo\",\"arguments\":\x7b\"longitude\":13.0,\"latitude\":20.0\x7d\x7d" "i"
    = .ok ⟨"i", "\x7b\"tool\":\"flyTo\",\"arguments\":\x7b\"longitude\":10.0,\"latitude\":20.0\x7d\x7d",
           "\x7b\"tool\":\"flyTo\",\"arguments\":\x7b\"longitude\":13.0,\"latitude\":20.0\x7d\x7d",
           true, true, some ⟨9, 0⟩, false⟩ := rfl

example :
    (evaluate_sample "\x7b\"tool\":\"flyTo\",\"arguments\":\x7b\"longitude\":10.0,\"latitude\":20.0\x7d\x7d"
      "\x7b\"tool\":\"flyTo\",\"arguments\":\x7b\x7d\x7d" "i").map EvalResult.coord_error
    = .ok (some ⟨500, 0⟩) := rfl

example :
    (evaluate_sample "\x7b\"tool\":\"flyTo\",\"arguments\":\x7b\"latitude\":20.0\x7d\x7d"
      "\x7b\"tool\":\"flyTo\",\"arguments\":\x7b\"longitude\":10.0,\"latitude\":20.0\x7d\x7d" "i").map
      EvalResult.coord_error = .ok none := rfl

example : evaluate_sample "[1]" "[2]" "i" = .error .attributeError := rfl

/-- Canonical form of a Python dict key appearing in `tool_stats`.  Python
`bool` is a subtype of `int` and `hash`/`==` identify `True`, `1` and `1.0`,
so booleans and numbers share the `knum` constructor (with the canonical
decimal representation, structural equality on `KeyC` is exactly Python key
identity). -/
inductive KeyC where
  | knull
  | knum (d : DecNum)
  | kstr (s : String)
deriving DecidableEq, Repr

/-- Canonical dict key of a decoded JSON value, `none` when the value is
unhashable (`list`/`dict`), in which case `defaultdict` indexing raises
`TypeError`. -/
def canonKey : JValue → Option KeyC
  | .null => some .knull
  | .bool b => some (.knum ⟨if b then 1 else 0, 0⟩)
  | .num d => some (.knum d)
  | .str s => some (.kstr s)
  | _ => none

/-- The `tool_stats` bucket key of one sample in `print_results` (lines
241-248): re-parse the expected text; a falsy parse (`None` or an empty dict)
skips the sample entirely; a truthy dict contributes under its `"tool"` value
(default `"unknown"`); a truthy non-dict raises an uncaught `AttributeError`
at `.get`; an unhashable tool value raises an uncaught `TypeError` at the
`defaultdict` indexing. -/
def bucketKeyE (r : EvalResult) : Except PyErr (Option KeyC) :=
  match parse_json_output r.expected with
  | none => .ok none
  | some v =>
    if v.truthy then
      match v with
      | .obj fs =>
        match canonKey (jgetD fs "tool" (.str "unknown")) with
        | some k => .ok (some k)
        | none => .error .typeError
      | _ => .error .attributeError
    else .ok none

/-- Increment a bucket of the per-tool statistics table: `total` always, and
`correct` when the sample's `tool_match` is set.  Entries are
`(key, correct, total)`; a new key is appended at the end, as `defaultdict`
does. -/
def bumpStat : List (KeyC × Nat × Nat) → KeyC → Bool → List (KeyC × Nat × Nat)
  | [], k, c => [(k, (if c then 1 else 0), 1)]
  | (k', cor, tot) :: rest, k, c =>
    if k' = k then (k', cor + (if c then 1 else 0), tot + 1) :: rest
    else (k', cor, tot) :: bumpStat rest k c

/-- The `tool_stats` accumulation loop of `print_results`, threading the
table through the sample list in order. -/
def toolStatsAux : List EvalResult → List (KeyC × Nat × Nat) →
    Except PyErr (List (KeyC × Nat × Nat))
  | [], acc => .ok acc
  | r :: rs, acc =>
    match bucketKeyE r with
    | .error e => .error e
    | .ok none => toolStatsAux rs acc
    | .ok (some k) => toolStatsAux rs (bumpStat acc k r.tool_match)

/-- The per-tool statistics table of `print_results` (insertion-ordered, as a
Python `defaultdict` is). -/
def toolStats (rs : List EvalResult) : Except PyErr (List (KeyC × Nat × Nat)) :=
  toolStatsAux rs []

/-- Lookup of one bucket as a `(correct, total)` pair, `(0, 0)` when the key
was never inserted. -/
def statCT (stats : List (KeyC × Nat × Nat)) (k : KeyC) : Nat × Nat :=
  match stats with
  | [] => (0, 0)
  | (k', c, t) :: rest => if k' = k then (c, t) else statCT rest k

/-- String view of a dict key (meaningful on `kstr` keys, where Python's
`sorted` compares lexicographically by code point). -/
def keyCStr : KeyC → String
  | .kstr s => s
  | _ => ""

/-- Numeric view of a dict key (meaningful on `knum` keys). -/
def keyCNum : KeyC → DecNum
  | .knum d => d
  | _ => ⟨0, 0⟩

/-- Comparison used by `sorted` on homogeneous string keys. -/
def stLeStr (a b : KeyC × Nat × Nat) : Prop := strLe (keyCStr a.1) (keyCStr b.1) = true

/-- Value order on exact decimals. -/
def decNumLe (a b : DecNum) : Prop := a.m * 10 ^ b.e ≤ b.m * 10 ^ a.e

/-- Comparison used by `sorted` on homogeneous numeric keys. -/
def stLeNum (a b : KeyC × Nat × Nat) : Prop := decNumLe (keyCNum a.1) (keyCNum b.1)

instance instDecStLeStr : DecidableRel stLeStr := fun a b => by
  unfold stLeStr; infer_instance

instance instDecStLeNum : DecidableRel stLeNum := fun a b => by
  unfold stLeNum decNumLe; infer_instance

/-- Model of `sorted(tool_stats.items())` in the per-tool table of
`print_results`.  Tuples are compared componentwise and dict keys are unique,
so only the keys are ever compared; Python's `sorted` raises `TypeError` as
soon as it compares values of incomparable types, so a table of two or more
buckets whose keys are not homogeneously strings or numbers fails, while
tables with at most one entry never compare anything. -/
def sortItems (stats : List (KeyC × Nat × Nat)) : Except PyErr (List (KeyC × Nat × Nat)) :=
  if stats.all fun e => match e.1 with | .kstr _ => true | _ => false then
    .ok (List.insertionSort stLeStr stats)
  else if stats.all fun e => match e.1 with | .knum _ => true | _ => false then
    .ok (List.insertionSort stLeNum stats)
  else if stats.length ≤ 1 then .ok stats
  else .error .typeError

/-- What `print_results` (evaluate.py lines 228-318) computes before and
while printing: headline counts, the coordinate-error list (squared values,
see module comment), its mean, the headline percentage rows, and the sorted
per-tool table.  Steps appear in source order: the `tool_stats` loop runs
before the summary table rows, whose `100*tool_correct/total` raises
`ZeroDivisionError` on an empty input; the remaining divisions are guarded in
the source. -/
structure Report where
  total : Nat
  tool_correct : Nat
  json_valid_count : Nat
  exact_count : Nat
  coord_errors : List DecNum
  avg_coord_error : Option ℚ
  tool_acc_pct : ℚ
  json_valid_pct : ℚ
  exact_pct : ℚ
  per_tool : List (KeyC × Nat × Nat)

/-- Model of `print_results` as the report it renders and persists, with the
Python exceptions it can raise. -/
def print_results (rs : List EvalResult) : Except PyErr Report :=
  let total := rs.length
  let tool_correct := rs.countP (·.tool_match)
  let json_valid := rs.countP (·.json_valid)
  let exact := rs.countP (·.exact_match)
  let coord_errors := rs.filterMap (·.coord_error)
  let avg : Option ℚ :=
    if coord_errors.isEmpty then none
    else some ((coord_errors.map DecNum.toRat).sum / coord_errors.length)
  match toolStats rs with
  | .error e => .error e
  | .ok stats =>
    if total = 0 then .error .zeroDivisionError
    else
      match sortItems stats with
      | .error e => .error e
      | .ok sorted =>
        .ok ⟨total, tool_correct, json_valid, exact, coord_errors, avg,
             100 * tool_correct / (total : ℚ), 100 * json_valid / (total : ℚ),
             100 * exact / (total : ℚ), sorted⟩

example : print_results [] = .error .zeroDivisionError := rfl

/-- Character class `[\d.]` of the progress patterns. -/
def digitDot (c : Char) : Bool := c.isDigit || c = '.'

/-- All suffixes of the input that immediately follow an occurrence of `lit`,
in left-to-right order of the occurrences. -/
def suffixesAfter (lit : List Char) : Nat → List Char → List (List Char)
  | 0, _ => []
  | fuel + 1, cs =>
    let here := if lit.isPrefixOf cs then [cs.drop lit.length] else []
    match cs with
    | [] => here
    | _ :: t => here ++ suffixesAfter lit fuel t

/-- Backtracking matcher for a chain `.*lit1([\d.]+).*lit2([\d.]+)...` of the
iteration pattern, starting after the already-captured groups.  A greedy `.*`
followed by a literal binds to the rightmost occurrence whose continuation
matches, so occurrences are tried right to left; each capture `[\d.]+` is the
maximal digit-dot run (shrinking it can never help, because the literals
contain no digit-dot characters, so giving characters back cannot create new
occurrences).  Returns the captured groups in order. -/
def matchDots : Nat → List (List Char) → List Char → Option (List (List Char))
  | 0, _, _ => none
  | _ + 1, [], _ => some []
  | fuel + 1, lit :: more, cs =>
    ((suffixesAfter lit (cs.length + 1) cs).reverse).findSome? fun suf =>
      let run := suf.takeWhile digitDot
      if run.isEmpty then none
      else (matchDots fuel more (suf.drop run.length)).map fun gs => run :: gs

/-- Attempt the iteration-report pattern
`Iter (\d+): Train loss ([\d.]+).*It/sec ([\d.]+).*Tokens/sec ([\d.]+).*Peak mem ([\d.]+)`
anchored at the start of the input; the leading `(\d+)` and `([\d.]+)` are
maximal runs because the character following them in the pattern is outside
their class.  Returns the five captured groups. -/
def matchIterAt (cs : List Char) :
    Option (List Char × List Char × List Char × List Char × List Char) :=
  if ("Iter ".data).isPrefixOf cs then
    let r0 := cs.drop 5
    let g1 := r0.takeWhile Char.isDigit
    if g1.isEmpty then none
    else
      let r1 := r0.drop g1.length
      if (": Train loss ".data).isPrefixOf r1 then
        let r2 := r1.drop 13
        let g2 := r2.takeWhile digitDot
        if g2.isEmpty then none
        else
          match matchDots 8 ["It/sec ".data, "Tokens/sec ".data, "Peak mem ".data]
              (r2.drop g2.length) with
          | some [g3, g4, g5] => some (g1, g2, g3, g4, g5)
          | _ => none
      else none
  else none

/-- `re.search` with the iteration-report pattern: try each start position
left to right. -/
def iterSearch : Nat → List Char →
    Option (List Char × List Char × List Char × List Char × List Char)
  | 0, _ => none
  | fuel + 1, cs =>
    match matchIterAt cs with
    | some g => some g
    | none =>
      match cs with
      | [] => none
      | _ :: t => iterSearch fuel t

/-- Attempt the validation-report pattern `Iter \d+: Val loss ([\d.]+)`
anchored at the start of the input. -/
def matchValAt (cs : List Char) : Option (List Char) :=
  if ("Iter ".data).isPrefixOf cs then
    let r0 := cs.drop 5
    let g1 := r0.takeWhile Char.isDigit
    if g1.isEmpty then none
    else
      let r1 := r0.drop g1.length
      if (": Val loss ".data).isPrefixOf r1 then
        let run := (r1.drop 11).takeWhile digitDot
        if run.isEmpty then none else some run
      else none
  else none

/-- `re.search` with the validation-report pattern. -/
def valSearch : Nat → List Char → Option (List Char)
  | 0, _ => none
  | fuel + 1, cs =>
    match matchValAt cs with
    | some g => some g
    | none =>
      match cs with
      | [] => none
      | _ :: t => valSearch fuel t

/-- Substring test (the save-confirmation pattern `Saved adapter weights` has
no metacharacters, so `re.search` is a substring search). -/
def hasInfix : Nat → List Char → List Char → Bool
  | 0, _, _ => false
  | fuel + 1, lit, cs =>
    lit.isPrefixOf cs ||
      match cs with
      | [] => false
      | _ :: t => hasInfix fuel lit t

/-- Mutable state of the progress monitor (train_progress.py lines 63-69). -/
structure ProgState where
  current_iter : Nat
  train_loss : DecNum
  val_loss : DecNum
  tokens_per_sec : DecNum
  peak_mem : DecNum
  saved : Bool
deriving DecidableEq, Repr

/-- Initial monitor state (all zero, save flag clear). -/
def initProgState : ProgState := ⟨0, ⟨0, 0⟩, ⟨0, 0⟩, ⟨0, 0⟩, ⟨0, 0⟩, false⟩

/-- One iteration of the line loop of `main` (train_progress.py lines
96-128): strip the line, run the three patterns, update the state from the
captured groups (groups 1, 2, 4, 5 of the iteration pattern; the save flag is
reset by an iteration event and set by a save event), and report whether the
display was re-rendered (exactly when the iteration or validation pattern
matched).  A captured group that `float()` rejects (for example `1.2.3`)
raises an uncaught `ValueError`, aborting before any render. -/
def stepLine (s : ProgState) (line : String) : Except PyErr (ProgState × Bool) :=
  let cs := pyStrip line.data
  let im := iterSearch (cs.length + 1) cs
  let s1E : Except PyErr ProgState :=
    match im with
    | some (g1, g2, _g3, g4, g5) =>
      match pyFloatChars g2 with
      | none => .error .valueError
      | some tl =>
        match pyFloatChars g4 with
        | none => .error .valueError
        | some ts =>
          match pyFloatChars g5 with
          | none => .error .valueError
          | some pm =>
            .ok { s with current_iter := digitsToNat g1, train_loss := tl,
                         tokens_per_sec := ts, peak_mem := pm, saved := false }
    | none => .ok s
  match s1E with
  | .error e => .error e
  | .ok s1 =>
    let vm := valSearch (cs.length + 1) cs
    let s2E : Except PyErr ProgState :=
      match vm with
      | some g =>
        match pyFloatChars g with
        | none => .error .valueError
        | some vl => .ok { s1 with val_loss := vl }
      | none => .ok s1
    match s2E with
    | .error e => .error e
    | .ok s2 =>
      let s3 :=
        if hasInfix (cs.length + 1) ("Saved adapter weights".data) cs then
          { s2 with saved := true }
        else s2
      .ok (s3, im.isSome || vm.isSome)

example :
    stepLine initProgState
        "Iter 10: Train loss 1.234, It/sec 2.1, Tokens/sec 512.0, Peak mem 4.2"
      = .ok (⟨10, ⟨1234, 3⟩, ⟨0, 0⟩, ⟨512, 0⟩, ⟨42, 1⟩, false⟩, true) := rfl

example :
    stepLine ⟨10, ⟨1234, 3⟩, ⟨0, 0⟩, ⟨512, 0⟩, ⟨42, 1⟩, false⟩ "hello world"
      = .ok (⟨10, ⟨1234, 3⟩, ⟨0, 0⟩, ⟨512, 0⟩, ⟨42, 1⟩, false⟩, false) := rfl

example :
    stepLine initProgState "Saved adapter weights to adapters.npz."
      = .ok ({ initProgState with saved := true }, false) := rfl

example :
    stepLine initProgState "Iter 20: Val loss 2.5"
      = .ok ({ initProgState with val_loss := ⟨25, 1⟩ }, true) := rfl

example :
    stepLine initProgState
        "Iter 10: Train loss 1.2.3, It/sec 2.1, Tokens/sec 512.0, Peak mem 4.2"
      = .error .valueError := rfl

/-- C1: on the empty sample sequence, `print_results` neither signals an
explicit empty-input condition nor returns a sentinel: the unguarded
`100*tool_correct/total` in the summary table raises a bare
`ZeroDivisionError` (the persisted-output path of the same function guards
its divisions with `if total > 0 else 0`, so the table row is a slip). -/
theorem print_results_empty_raises_div :
    print_results [] = .error .zeroDivisionError := rfl

/-- C4: a predicted text that is entirely valid non-mapping JSON is not
reported absent: the direct-parse branch of `parse_json_output` returns the
parsed array (contradicting the function's `Optional[dict]` annotation), and
`evaluate_sample` therefore reports `json_valid = True` for it. -/
theorem parse_json_output_nonmapping_accepted :
    parse_json_output "[1, 2]" = some (.arr [.num ⟨1, 0⟩, .num ⟨2, 0⟩]) ∧
    parse_json_output "42" = some (.num ⟨42, 0⟩) ∧
    evaluate_sample "no json here" "[1, 2]" "i"
      = .ok ⟨"i", "no json here", "[1, 2]", false, true, none, false⟩ :=
  ⟨rfl, rfl, rfl⟩

/-- C9: whenever `evaluate_sample` returns a result, `tool_match` implies
`json_valid`, and a present `coord_error` implies `json_valid`: both are
computed only inside the branch gated on the truthiness of both parsed
values, where the predicted parse is in particular `some _`. -/
theorem evaluate_sample_invariants (e p i : String) (r : EvalResult)
    (h : evaluate_sample e p i = .ok r) :
    (r.tool_match = true → r.json_valid = true) ∧
    (r.coord_error.isSome = true → r.json_valid = true) := by
  unfold evaluate_sample at h
  simp only [] at h
  split at h
  · split at h
    · split at h
      · cases h
        refine ⟨fun _ => ?_, fun _ => ?_⟩ <;> simp_all [otruthy]
      · cases h
    · cases h
  · cases h
    exact ⟨by simp, by simp⟩

/-- Witness for C9 at a concrete sample. -/
theorem evaluate_sample_invariants_witness :
    ((⟨"i", "\x7b\"tool\":\"x\"\x7d", "\x7b\"tool\":\"x\"\x7d", true, true, none, true⟩ :
        EvalResult).tool_match = true →
      (⟨"i", "\x7b\"tool\":\"x\"\x7d", "\x7b\"tool\":\"x\"\x7d", true, true, none, true⟩ :
        EvalResult).json_valid = true) ∧
    ((⟨"i", "\x7b\"tool\":\"x\"\x7d", "\x7b\"tool\":\"x\"\x7d", true, true, none, true⟩ :
        EvalResult).coord_error.isSome = true →
      (⟨"i", "\x7b\"tool\":\"x\"\x7d", "\x7b\"tool\":\"x\"\x7d", true, true, none, true⟩ :
        EvalResult).json_valid = true) :=
  evaluate_sample_invariants "\x7b\"tool\":\"x\"\x7d" "\x7b\"tool\":\"x\"\x7d" "i" _ rfl

/-- C10: when the predicted text extracts to the empty mapping, the sample is
reported `json_valid = True` (the parse is not `None`) while both `tool_match`
and the coordinate comparison are skipped (the gate tests truthiness, and an
empty dict is falsy), whatever the expected text is. -/
theorem evaluate_sample_empty_mapping (e p i : String)
    (hp : parse_json_output p = some (.obj [])) :
    evaluate_sample e p i
      = .ok ⟨i, e, p, false, true, none, pyStrip e.data == pyStrip p.data⟩ := by
  unfold evaluate_sample
  rw [hp]
  simp [otruthy, JValue.truthy]

/-- Witness for C10: both texts extract to the empty mapping, yet the sample
counts as valid with no tool match and no coordinate error. -/
theorem evaluate_sample_empty_mapping_witness :
    evaluate_sample "\x7b\x7d" "\x7b\x7d" "i" = .ok ⟨"i", "\x7b\x7d", "\x7b\x7d", false, true, none, true⟩ := by
  rw [evaluate_sample_empty_mapping "\x7b\x7d" "\x7b\x7d" "i" rfl]
  rfl

/-- Does a line match the iteration-report pattern of the monitor (after the
`line.strip()` the loop applies)? -/
def lineIterMatches (line : String) : Bool :=
  (iterSearch ((pyStrip line.data).length + 1) (pyStrip line.data)).isSome

/-- Does a line match the validation-report pattern? -/
def lineValMatches (line : String) : Bool :=
  (valSearch ((pyStrip line.data).length + 1) (pyStrip line.data)).isSome

/-- Does a line match the save-confirmation pattern? -/
def lineSaveMatches (line : String) : Bool :=
  hasInfix ((pyStrip line.data).length + 1) ("Saved adapter weights".data) (pyStrip line.data)

/-- C7 counterexample: a line that matches the iteration-report pattern but
whose captured train-loss group `1.2.3` is rejected by `float()`: the monitor
raises an uncaught `ValueError` and renders zero times, not exactly once as
the claim requires for every matching line. -/
theorem stepLine_matching_line_without_render :
    lineIterMatches
        "Iter 10: Train loss 1.2.3, It/sec 2.1, Tokens/sec 512.0, Peak mem 4.2" = true ∧
    stepLine initProgState
        "Iter 10: Train loss 1.2.3, It/sec 2.1, Tokens/sec 512.0, Peak mem 4.2"
      = .error .valueError := ⟨rfl, rfl⟩

/-- C7 as amended: when the line loop completes a line, it renders exactly
once if the line matched the iteration or validation pattern and zero times
otherwise (a matching line whose captured numeric field does not coerce
aborts the monitor instead, rendering zero times); non-matching lines leave
iteration, losses, throughput and memory unchanged (only the save flag can be
set); the concrete iteration line sets iteration 10, train loss 1.234,
throughput 512.0, peak memory 4.2 and renders once, and a subsequent
unrelated line renders zero times. -/
theorem stepLine_render_once_iff_matched :
    (∀ (s : ProgState) (line : String) (s2 : ProgState) (b : Bool),
        stepLine s line = .ok (s2, b) →
        b = (lineIterMatches line || lineValMatches line)) ∧
    (∀ (s : ProgState) (line : String),
        lineIterMatches line = false → lineValMatches line = false →
        stepLine s line
          = .ok (if lineSaveMatches line then { s with saved := true } else s, false)) ∧
    stepLine initProgState
        "Iter 10: Train loss 1.234, It/sec 2.1, Tokens/sec 512.0, Peak mem 4.2"
      = .ok (⟨10, ⟨1234, 3⟩, ⟨0, 0⟩, ⟨512, 0⟩, ⟨42, 1⟩, false⟩, true) ∧
    stepLine (⟨10, ⟨1234, 3⟩, ⟨0, 0⟩, ⟨512, 0⟩, ⟨42, 1⟩, false⟩ : ProgState)
        "training continues normally"
      = .ok (⟨10, ⟨1234, 3⟩, ⟨0, 0⟩, ⟨512, 0⟩, ⟨42, 1⟩, false⟩, false) := by
  refine ⟨?_, ?_, rfl, rfl⟩
  · intro s line s2 b h
    unfold stepLine at h
    simp only [] at h
    split at h
    · cases h
    · split at h
      · cases h
      · cases h
        rfl
  · intro s line hi hv
    have h1 : iterSearch ((pyStrip line.data).length + 1) (pyStrip line.data) = none := by
      cases hx : iterSearch ((pyStrip line.data).length + 1) (pyStrip line.data) with
      | none => rfl
      | some g => unfold lineIterMatches at hi; rw [hx] at hi; cases hi
    have h2 : valSearch ((pyStrip line.data).length + 1) (pyStrip line.data) = none := by
      cases hx : valSearch ((pyStrip line.data).length + 1) (pyStrip line.data) with
      | none => rfl
      | some g => unfold lineValMatches at hv; rw [hx] at hv; cases hv
    unfold stepLine
    simp only []
    rw [h1, h2]
    rfl

/-- Witness for the amended C7 on a line that matches neither pattern. -/
theorem stepLine_render_once_iff_matched_witness :
    stepLine initProgState "loading dataset shards"
      = .ok (if lineSaveMatches "loading dataset shards" then
               { initProgState with saved := true }
             else initProgState, false) :=
  stepLine_render_once_iff_matched.2.1 initProgState "loading dataset shards" rfl rfl

theorem toRat_normTrailAux : ∀ (e : Nat) (m : Int),
    (normTrailAux m e).toRat = (m : ℚ) / 10 ^ e := by
  intro e
  induction e with
  | zero => intro m; simp [normTrailAux, DecNum.toRat]
  | succ e ih =>
    intro m
    unfold normTrailAux
    by_cases hm : m % 10 = 0
    · rw [if_pos hm, ih]
      rcases Int.dvd_of_emod_eq_zero hm with ⟨k, hk⟩
      subst hk
      rw [Int.mul_ediv_cancel_left k (by norm_num)]
      push_cast
      rw [pow_succ]
      field_simp
      ring
    · rw [if_neg hm]
      simp [DecNum.toRat]

/-- Value of a canonicalized mantissa/exponent pair. -/
theorem DecNum.toRat_normTrail (m : Int) (e : Nat) :
    (DecNum.normTrail m e).toRat = (m : ℚ) / 10 ^ e :=
  toRat_normTrailAux e m

theorem scale_div (m : Int) (e k M : Nat) (h : e + k = M) :
    ((m : ℚ) * 10 ^ k) / 10 ^ M = (m : ℚ) / 10 ^ e := by
  subst h
  rw [pow_add]
  exact mul_div_mul_right _ _ (by positivity)

/-- Decimal subtraction computes rational subtraction. -/
theorem DecNum.toRat_sub (a b : DecNum) : (a.sub b).toRat = a.toRat - b.toRat := by
  unfold DecNum.sub DecNum.combine
  rw [DecNum.toRat_normTrail]
  unfold DecNum.toRat
  push_cast
  rw [sub_div, scale_div a.m a.e _ _ (Nat.add_sub_cancel' (le_max_left a.e b.e)),
      scale_div b.m b.e _ _ (Nat.add_sub_cancel' (le_max_right a.e b.e))]

/-- Decimal addition computes rational addition. -/
theorem DecNum.toRat_add (a b : DecNum) : (a.add b).toRat = a.toRat + b.toRat := by
  unfold DecNum.add DecNum.combine
  rw [DecNum.toRat_normTrail]
  unfold DecNum.toRat
  push_cast
  rw [add_div, scale_div a.m a.e _ _ (Nat.add_sub_cancel' (le_max_left a.e b.e)),
      scale_div b.m b.e _ _ (Nat.add_sub_cancel' (le_max_right a.e b.e))]

/-- Decimal multiplication computes rational multiplication. -/
theorem DecNum.toRat_mul (a b : DecNum) : (a.mul b).toRat = a.toRat * b.toRat := by
  unfold DecNum.mul
  rw [DecNum.toRat_normTrail]
  unfold DecNum.toRat
  push_cast
  rw [pow_add]
  rw [div_mul_div_comm]

/-- Unfolding of `compare_coordinates` on two mappings. -/
theorem compare_coordinates_obj_eq (ef pf : List (String × JValue)) :
    compare_coordinates (.obj ef) (.obj pf)
      = coordBody (jgetD ef "arguments" (.obj [])) (jgetD pf "arguments" (.obj [])) := rfl

/-- Unfolding of `coordBody` on a mapping of expected arguments. -/
theorem coordBody_obj_eq (efs : List (String × JValue)) (pargs : JValue) :
    coordBody (.obj efs) pargs =
      if containsKey efs "longitude" && containsKey efs "latitude" then
        match pyFloat (jgetD efs "longitude" .null), pyFloat (jgetD efs "latitude" .null) with
        | some elon, some elat =>
          match pargs with
          | .obj pfs =>
            match pyFloat (jgetD pfs "longitude" (.num ⟨0, 0⟩)),
                  pyFloat (jgetD pfs "latitude" (.num ⟨0, 0⟩)) with
            | some plon, some plat =>
              .ok (some (((elon.sub plon).mul (elon.sub plon)).add
                         ((elat.sub plat).mul (elat.sub plat))))
            | _, _ => .ok none
          | _ => .error .attributeError
        | _, _ => .ok none
      else .ok none := rfl

/-- Unfolding of `coordBody` when both argument values are mappings. -/
theorem coordBody_obj_obj_eq (efs pfs : List (String × JValue)) :
    coordBody (.obj efs) (.obj pfs) =
      if containsKey efs "longitude" && containsKey efs "latitude" then
        match pyFloat (jgetD efs "longitude" .null), pyFloat (jgetD efs "latitude" .null) with
        | some elon, some elat =>
          match pyFloat (jgetD pfs "longitude" (.num ⟨0, 0⟩)),
                pyFloat (jgetD pfs "latitude" (.num ⟨0, 0⟩)) with
          | some plon, some plat =>
            .ok (some (((elon.sub plon).mul (elon.sub plon)).add
                       ((elat.sub plat).mul (elat.sub plat))))
          | _, _ => .ok none
        | _, _ => .ok none
      else .ok none := rfl

/-- Shape of `evaluate_sample` when both texts parse to truthy (non-empty)
mappings: the result is the coordinate comparison mapped into a record whose
validity flag is set and whose `tool_match` compares the two `tool` values. -/
theorem evaluate_sample_truthy_obj (e p i : String) (ef pf : List (String × JValue))
    (he : parse_json_output e = some (.obj ef)) (hef : ef ≠ [])
    (hp : parse_json_output p = some (.obj pf)) (hpf : pf ≠ []) :
    evaluate_sample e p i =
      (compare_coordinates (.obj ef) (.obj pf)).map fun ce =>
        ⟨i, e, p,
         pyEqF (e.data.length + p.data.length + 2)
           (jgetD ef "tool" .null) (jgetD pf "tool" .null),
         true, ce, pyStrip e.data == pyStrip p.data⟩ := by
  unfold evaluate_sample
  simp only []
  split
  · rw [he, hp]
    show (match compare_coordinates (.obj ef) (.obj pf) with
          | Except.ok ce =>
            Except.ok (⟨i, e, p,
              pyEqF (e.data.length + p.data.length + 2)
                (jgetD ef "tool" .null) (jgetD pf "tool" .null),
              (some (JValue.obj pf)).isSome, ce, pyStrip e.data == pyStrip p.data⟩ :
              EvalResult)
          | Except.error e2 => Except.error e2)
        = (compare_coordinates (.obj ef) (.obj pf)).map fun ce =>
            ⟨i, e, p,
             pyEqF (e.data.length + p.data.length + 2)
               (jgetD ef "tool" .null) (jgetD pf "tool" .null),
             true, ce, pyStrip e.data == pyStrip p.data⟩
    cases compare_coordinates (.obj ef) (.obj pf) <;> rfl
  · rename_i hgate
    rw [he, hp] at hgate
    simp [otruthy, JValue.truthy, List.isEmpty_iff, hef, hpf] at hgate

/-- Expected record of the coordinate example. -/
def exExpected : String := "\x7b\"tool\": \"flyTo\", \"arguments\": \x7b\"longitude\": 10.0, \"latitude\": 20.0\x7d\x7d"

/-- Predicted record with a non-coercible longitude. -/
def exPredNull : String := "\x7b\"tool\": \"flyTo\", \"arguments\": \x7b\"longitude\": null, \"latitude\": 20.0\x7d\x7d"

/-- Predicted record of the 3-degree example. -/
def exPred13 : String := "\x7b\"tool\": \"flyTo\", \"arguments\": \x7b\"longitude\": 13.0, \"latitude\": 20.0\x7d\x7d"

/-- C3 counterexample: both texts extract, the expected arguments carry
coercible coordinates, yet a predicted longitude that is present but not
coercible (`null`) does not default to `0.0` as the claim states: the
`float()` failure is caught and `coordinate_error` is absent. -/
theorem evaluate_sample_noncoercible_pred_absent :
    parse_json_output exExpected
      = some (.obj [("arguments", .obj [("latitude", .num ⟨20, 0⟩),
                                        ("longitude", .num ⟨10, 0⟩)]),
                    ("tool", .str "flyTo")]) ∧
    parse_json_output exPredNull
      = some (.obj [("arguments", .obj [("latitude", .num ⟨20, 0⟩),
                                        ("longitude", .null)]),
                    ("tool", .str "flyTo")]) ∧
    evaluate_sample exExpected exPredNull "i"
      = .ok ⟨"i", exExpected, exPredNull, true, true, none, false⟩ :=
  ⟨rfl, rfl, rfl⟩

/-- C3 as amended: when both texts extract to truthy mappings and the
expected arguments carry coercible `longitude`/`latitude`, the coordinate
error is present and equals the (squared, module comment) Euclidean distance
whenever the predicted values — a missing predicted field defaults to `0.0`
through `.get("longitude", 0)` — coerce to numbers, and is absent when a
present predicted value fails to coerce. -/
theorem evaluate_sample_coord_semantics
    (e p i : String) (ef pf eargs pargs : List (String × JValue))
    (lv tv : JValue) (elon elat : DecNum)
    (he : parse_json_output e = some (.obj ef)) (hef : ef ≠ [])
    (hp : parse_json_output p = some (.obj pf)) (hpf : pf ≠ [])
    (hea : jgetD ef "arguments" (.obj []) = .obj eargs)
    (hlv : alookup eargs "longitude" = some lv) (hflv : pyFloat lv = some elon)
    (htv : alookup eargs "latitude" = some tv) (hftv : pyFloat tv = some elat)
    (hpa : jgetD pf "arguments" (.obj []) = .obj pargs) :
    ∃ r, evaluate_sample e p i = .ok r ∧
      (∀ plon plat,
          pyFloat (jgetD pargs "longitude" (.num ⟨0, 0⟩)) = some plon →
          pyFloat (jgetD pargs "latitude" (.num ⟨0, 0⟩)) = some plat →
          ∃ d, r.coord_error = some d ∧
            d.toRat = (elon.toRat - plon.toRat) ^ 2 + (elat.toRat - plat.toRat) ^ 2) ∧
      ((pyFloat (jgetD pargs "longitude" (.num ⟨0, 0⟩)) = none ∨
        pyFloat (jgetD pargs "latitude" (.num ⟨0, 0⟩)) = none) →
        r.coord_error = none) := by
  have hcl : containsKey eargs "longitude" = true := by
    unfold containsKey; rw [hlv]; rfl
  have hct : containsKey eargs "latitude" = true := by
    unfold containsKey; rw [htv]; rfl
  have hgl : jgetD eargs "longitude" .null = lv := by
    unfold jgetD; rw [hlv]; rfl
  have hgt : jgetD eargs "latitude" .null = tv := by
    unfold jgetD; rw [htv]; rfl
  have hcc : compare_coordinates (.obj ef) (.obj pf)
      = .ok (match pyFloat (jgetD pargs "longitude" (.num ⟨0, 0⟩)),
                   pyFloat (jgetD pargs "latitude" (.num ⟨0, 0⟩)) with
             | some plon, some plat =>
                 some (((elon.sub plon).mul (elon.sub plon)).add
                       ((elat.sub plat).mul (elat.sub plat)))
             | _, _ => none) := by
    rw [compare_coordinates_obj_eq, hea, hpa, coordBody_obj_obj_eq, hcl, hct, hgl, hgt,
        hflv, hftv]
    cases pyFloat (jgetD pargs "longitude" (.num ⟨0, 0⟩)) <;>
      cases pyFloat (jgetD pargs "latitude" (.num ⟨0, 0⟩)) <;> rfl
  rw [evaluate_sample_truthy_obj e p i ef pf he hef hp hpf, hcc]
  refine ⟨_, rfl, ?_, ?_⟩
  · intro plon plat hplon hplat
    rw [hplon, hplat]
    refine ⟨_, rfl, ?_⟩
    rw [DecNum.toRat_add, DecNum.toRat_mul, DecNum.toRat_mul,
        DecNum.toRat_sub, DecNum.toRat_sub]
    ring
  · intro hnone
    rcases hnone with hn | hn
    · rw [hn]
    · rw [hn]
      cases pyFloat (jgetD pargs "longitude" (.num ⟨0, 0⟩)) <;> rfl

/-- Witness for the amended C3 at the spec example: expected (10, 20) against
predicted (13, 20) yields a coordinate error of exactly 3 degrees (squared
representation: the stored value is 3²). -/
theorem evaluate_sample_coord_semantics_witness :
    ∃ r, evaluate_sample exExpected exPred13 "i" = .ok r ∧
      ∃ d, r.coord_error = some d ∧ d.toRat = 3 ^ 2 := by
  obtain ⟨r, hr, hsome, _⟩ :=
    evaluate_sample_coord_semantics exExpected exPred13 "i"
      [("arguments", .obj [("latitude", .num ⟨20, 0⟩), ("longitude", .num ⟨10, 0⟩)]),
       ("tool", .str "flyTo")]
      [("arguments", .obj [("latitude", .num ⟨20, 0⟩), ("longitude", .num ⟨13, 0⟩)]),
       ("tool", .str "flyTo")]
      [("latitude", .num ⟨20, 0⟩), ("longitude", .num ⟨10, 0⟩)]
      [("latitude", .num ⟨20, 0⟩), ("longitude", .num ⟨13, 0⟩)]
      (.num ⟨10, 0⟩) (.num ⟨20, 0⟩) ⟨10, 0⟩ ⟨20, 0⟩
      rfl (by simp) rfl (by simp) rfl rfl rfl rfl rfl rfl
  obtain ⟨d, hd, hrat⟩ := hsome ⟨13, 0⟩ ⟨20, 0⟩ rfl rfl
  refine ⟨r, hr, d, hd, ?_⟩
  rw [hrat]
  norm_num [DecNum.toRat]

/-- Predicted record exposing no coordinates at all. -/
def exPredEmptyArgs : String := "\x7b\"tool\": \"flyTo\", \"arguments\": \x7b\x7d\x7d"

/-- C5 counterexample: the predicted record's arguments expose neither
`longitude` nor `latitude`, yet the coordinate error is present (the missing
predicted values default to `0.0`, giving the squared distance 10² + 20² =
500): presence does not require both sides to expose the coordinates. -/
theorem coord_error_present_without_pred_exposure :
    parse_json_output exPredEmptyArgs
      = some (.obj [("arguments", .obj []), ("tool", .str "flyTo")]) ∧
    evaluate_sample exExpected exPredEmptyArgs "i"
      = .ok ⟨"i", exExpected, exPredEmptyArgs, true, true, some ⟨500, 0⟩, false⟩ :=
  ⟨rfl, rfl⟩

/-- Conditions forced by a present coordinate comparison: the expected
arguments are a mapping exposing coercible `longitude` and `latitude`. -/
theorem coordBody_some_conditions (ea pa : JValue) (d : DecNum)
    (h : coordBody ea pa = .ok (some d)) :
    ∃ eargs, ea = .obj eargs ∧
      containsKey eargs "longitude" = true ∧
      containsKey eargs "latitude" = true ∧
      (pyFloat (jgetD eargs "longitude" .null)).isSome = true ∧
      (pyFloat (jgetD eargs "latitude" .null)).isSome = true := by
  cases ea with
  | obj efs =>
    rw [coordBody_obj_eq] at h
    refine ⟨efs, rfl, ?_⟩
    split at h
    · rename_i hcond
      split at h
      · rename_i elon elat hflon hflat
        simp_all [Bool.and_eq_true]
      · simp at h
    · simp at h
  | null => simp [coordBody] at h
  | bool b => simp [coordBody] at h
  | num q => simp [coordBody] at h
  | str s => simp [coordBody] at h
  | arr xs => simp [coordBody] at h

/-- C5 as amended: `coordinate_error` is present only when both records
extract to truthy mappings and the *expected* record's arguments expose
coercible `longitude` and `latitude` (the predicted side need not expose
them: missing predicted values default to `0.0`); in every case where
`evaluate_sample` returns and these conditions fail, it is absent, never
zero. -/
theorem coord_error_presence_conditions (e p i : String) (r : EvalResult)
    (h : evaluate_sample e p i = .ok r) (hs : r.coord_error.isSome = true) :
    otruthy (parse_json_output e) = true ∧
    otruthy (parse_json_output p) = true ∧
    ∃ ef eargs, parse_json_output e = some (.obj ef) ∧
      jgetD ef "arguments" (.obj []) = .obj eargs ∧
      containsKey eargs "longitude" = true ∧
      containsKey eargs "latitude" = true ∧
      (pyFloat (jgetD eargs "longitude" .null)).isSome = true ∧
      (pyFloat (jgetD eargs "latitude" .null)).isSome = true := by
  unfold evaluate_sample at h
  simp only [] at h
  split at h
  · rename_i hgate
    rcases Bool.and_eq_true_iff.mp hgate with ⟨hge, hgp⟩
    refine ⟨hge, hgp, ?_⟩
    split at h
    · rename_i ef pf heq1 heq2
      split at h
      · rename_i ce hc
        cases h
        cases hce : ce with
        | none => rw [hce] at hs; simp at hs
        | some d =>
          rw [hce] at hc
          rw [compare_coordinates_obj_eq] at hc
          obtain ⟨eargs, hea, h1, h2, h3, h4⟩ :=
            coordBody_some_conditions _ _ _ hc
          exact ⟨ef, eargs, heq1, hea, h1, h2, h3, h4⟩
      · rename_i er hc
        cases h
    · cases h
  · cases h
    cases hs

/-- Witness for the amended C5 at the 3-degree example, where the coordinate
error is present. -/
theorem coord_error_presence_conditions_witness :
    otruthy (parse_json_output exExpected) = true ∧
    otruthy (parse_json_output exPred13) = true ∧
    ∃ ef eargs, parse_json_output exExpected = some (.obj ef) ∧
      jgetD ef "arguments" (.obj []) = .obj eargs ∧
      containsKey eargs "longitude" = true ∧
      containsKey eargs "latitude" = true ∧
      (pyFloat (jgetD eargs "longitude" .null)).isSome = true ∧
      (pyFloat (jgetD eargs "latitude" .null)).isSome = true :=
  coord_error_presence_conditions exExpected exPred13 "i"
    ⟨"i", exExpected, exPred13, true, true, some ⟨9, 0⟩, false⟩ rfl rfl

theorem dropWhile_append_of_head_neg {α : Type} (p : α → Bool) (l1 : List α) (c : α)
    (l2 : List α) (hc : p c = false) :
    (l1 ++ c :: l2).dropWhile p = l1.dropWhile p ++ c :: l2 := by
  induction l1 with
  | nil => simp [List.dropWhile_cons, hc]
  | cons a l1 ih =>
    by_cases ha : p a = true
    · simp [List.dropWhile_cons, ha, ih]
    · simp only [Bool.not_eq_true] at ha
      simp [List.dropWhile_cons, ha]

theorem takeWhile_append_of_ne_nil {α : Type} (p : α → Bool) (l1 l2 : List α)
    (h : l1.dropWhile p ≠ []) :
    (l1 ++ l2).takeWhile p = l1.takeWhile p := by
  induction l1 with
  | nil => simp [List.dropWhile_nil] at h
  | cons a l1 ih =>
    by_cases ha : p a = true
    · simp only [List.dropWhile_cons, ha, if_true] at h
      simp [List.takeWhile_cons, ha, ih h]
    · simp only [Bool.not_eq_true] at ha
      simp [List.takeWhile_cons, ha]

theorem dropWhile_append_of_ne_nil {α : Type} (p : α → Bool) (l1 l2 : List α)
    (h : l1.dropWhile p ≠ []) :
    (l1 ++ l2).dropWhile p = l1.dropWhile p ++ l2 := by
  induction l1 with
  | nil => simp [List.dropWhile_nil] at h
  | cons a l1 ih =>
    by_cases ha : p a = true
    · simp only [List.dropWhile_cons, ha, if_true] at h
      simp [List.dropWhile_cons, ha, ih h]
    · simp only [Bool.not_eq_true] at ha
      simp [List.dropWhile_cons, ha]

theorem matchTail_nil (f : Nat) : matchTail f [] = none := by
  cases f <;> rfl

theorem matchTail_ne_nil {f : Nat} {t m r : List Char}
    (h : matchTail f t = some (m, r)) : t ≠ [] := by
  intro ht
  rw [ht, matchTail_nil] at h
  cases h

/-- One-step unfolding of `matchTail` at an opening brace. -/
theorem matchTail_succ_open (f : Nat) (rest : List Char) :
    matchTail (f + 1) ('{' :: rest) =
      match rest.dropWhile nonBrace with
      | c2 :: r2 =>
        if c2 = '}' then
          match matchTail f (r2.dropWhile nonBrace) with
          | some (m, rest2) =>
            some ('{' :: rest.takeWhile nonBrace ++ '}' :: r2.takeWhile nonBrace ++ m, rest2)
          | none => none
        else none
      | [] => none := rfl

/-- One-step unfolding of `matchTail` at a closing brace. -/
theorem matchTail_succ_close (f : Nat) (rest : List Char) :
    matchTail (f + 1) ('}' :: rest) = some (['}'], rest) := rfl

/-- One-step unfolding of `matchTail` at a non-brace character. -/
theorem matchTail_succ_other (f : Nat) (c : Char) (rest : List Char)
    (h1 : ¬c = '}') (h2 : ¬c = '{') :
    matchTail (f + 1) (c :: rest) = none := by
  simp [matchTail, h1, h2]

/-- Every successful `matchTail` consumption ends with the closing brace. -/
theorem matchTail_ends : ∀ (f : Nat) (t m r : List Char),
    matchTail f t = some (m, r) → ∃ m0, m = m0 ++ ['}'] := by
  intro f
  induction f with
  | zero => intro t m r h; cases h
  | succ f ih =>
    intro t m r h
    match t with
    | [] => cases h
    | c :: rest =>
      by_cases hc : c = '}'
      · subst hc
        rw [matchTail_succ_close] at h
        cases h
        exact ⟨[], rfl⟩
      · by_cases hc2 : c = '{'
        · subst hc2
          rw [matchTail_succ_open] at h
          split at h
          · rename_i c2 r2 heq
            split at h
            · split at h
              · rename_i m2 rest2 hmt
                obtain ⟨m0, hm0⟩ := ih _ _ _ hmt
                cases h
                subst hm0
                exact ⟨'{' :: rest.takeWhile nonBrace ++ '}' :: r2.takeWhile nonBrace ++ m0,
                       by simp⟩
              · cases h
            · cases h
          · cases h
        · rw [matchTail_succ_other f c rest hc hc2] at h
          cases h

/-- One-step unfolding of `matchTail` at an opening brace whose inner group
closes. -/
theorem matchTail_succ_open_close (f : Nat) (rest r2 : List Char)
    (hdw : rest.dropWhile nonBrace = '}' :: r2) :
    matchTail (f + 1) ('{' :: rest) =
      match matchTail f (r2.dropWhile nonBrace) with
      | some (m, rest2) =>
        some ('{' :: rest.takeWhile nonBrace ++ '}' :: r2.takeWhile nonBrace ++ m, rest2)
      | none => none := by
  rw [matchTail_succ_open, hdw]
  rfl

/-- A full `matchTail` consumption extends along brace-free text: appending
such text does not change the match, only the leftover. -/
theorem matchTail_extend : ∀ (f : Nat) (t m post : List Char) (f2 : Nat),
    matchTail f t = some (m, []) → (∀ c ∈ post, nonBrace c = true) → f ≤ f2 →
    matchTail f2 (t ++ post) = some (m, post) := by
  intro f
  induction f with
  | zero => intro t m post f2 h _ _; cases h
  | succ f ih =>
    intro t m post f2 h hpost hf
    obtain ⟨f2, rfl⟩ : ∃ f3, f2 = f3 + 1 := ⟨f2 - 1, by omega⟩
    match t with
    | [] => cases h
    | c :: rest =>
      by_cases hc : c = '}'
      · subst hc
        rw [matchTail_succ_close] at h
        cases h
        show matchTail (f2 + 1) ('}' :: post) = some (['}'], post)
        rw [matchTail_succ_close]
      · by_cases hc2 : c = '{'
        · subst hc2
          rw [matchTail_succ_open] at h
          split at h
          · rename_i c2 r2 heq
            split at h
            · rename_i hc3
              subst hc3
              split at h
              · rename_i m2 rest2 hmt
                cases h
                have hne1 : rest.dropWhile nonBrace ≠ [] := by rw [heq]; simp
                have hne2 : r2.dropWhile nonBrace ≠ [] := matchTail_ne_nil hmt
                have DW : (rest ++ post).dropWhile nonBrace = '}' :: (r2 ++ post) := by
                  rw [dropWhile_append_of_ne_nil _ _ _ hne1, heq]; rfl
                have TW : (rest ++ post).takeWhile nonBrace = rest.takeWhile nonBrace :=
                  takeWhile_append_of_ne_nil _ _ _ hne1
                have TW2 : (r2 ++ post).takeWhile nonBrace = r2.takeWhile nonBrace :=
                  takeWhile_append_of_ne_nil _ _ _ hne2
                have DW2 : (r2 ++ post).dropWhile nonBrace = r2.dropWhile nonBrace ++ post :=
                  dropWhile_append_of_ne_nil _ _ _ hne2
                have hext := ih (r2.dropWhile nonBrace) m2 post f2 hmt hpost (by omega)
                show matchTail (f2 + 1) ('{' :: (rest ++ post)) = _
                rw [matchTail_succ_open_close f2 (rest ++ post) (r2 ++ post) DW,
                    DW2, hext, TW, TW2]
              · cases h
            · cases h
          · cases h
        · rw [matchTail_succ_other f c rest hc hc2] at h
          cases h

/-- One-step unfolding of `match1At`. -/
theorem match1At_cons (c : Char) (rest : List Char) :
    match1At (c :: rest) =
      if c = '{' then
        match matchTail (rest.length + 1) (rest.dropWhile nonBrace) with
        | some (m, r) => some ('{' :: rest.takeWhile nonBrace ++ m, r)
        | none => none
      else none := rfl

/-- A full pattern-1 match extends along appended brace-free text. -/
theorem match1At_extend (d post : List Char)
    (hd : match1At d = some (d, []))
    (hpost : ∀ c ∈ post, nonBrace c = true) :
    match1At (d ++ post) = some (d, post) := by
  cases d with
  | nil => cases hd
  | cons c rest =>
    by_cases hc : c = '{'
    · subst hc
      rw [match1At_cons, if_pos rfl] at hd
      split at hd
      · rename_i m r hmt
        simp only [Option.some.injEq, Prod.mk.injEq] at hd
        obtain ⟨h2, h3⟩ := hd
        subst h3
        have hA : rest.takeWhile nonBrace ++ m = rest := by
          injection h2
        have hne1 : rest.dropWhile nonBrace ≠ [] := matchTail_ne_nil hmt
        have DW : (rest ++ post).dropWhile nonBrace = rest.dropWhile nonBrace ++ post :=
          dropWhile_append_of_ne_nil _ _ _ hne1
        have TW : (rest ++ post).takeWhile nonBrace = rest.takeWhile nonBrace :=
          takeWhile_append_of_ne_nil _ _ _ hne1
        have hext := matchTail_extend (rest.length + 1) (rest.dropWhile nonBrace) m post
          ((rest ++ post).length + 1) hmt hpost (by simp)
        show match1At ('{' :: (rest ++ post)) = _
        rw [match1At_cons, if_pos rfl, DW, hext, TW]
        exact congrArg (fun l => some ('{' :: l, post)) hA
      · cases hd
    · rw [match1At_cons, if_neg hc] at hd
      cases hd

/-- One-step unfolding of `findMatches1`. -/
theorem findMatches1_succ_cons (f : Nat) (c : Char) (cs : List Char) :
    findMatches1 (f + 1) (c :: cs) =
      if c = '{' then
        match match1At (c :: cs) with
        | some (m, rest) => m :: findMatches1 f rest
        | none => findMatches1 f cs
      else findMatches1 f cs := rfl

/-- Scanning a brace-free prefix, the first collected pattern-1 match is the
match anchored at the first opening brace. -/
theorem findMatches1_prefix : ∀ (pre : List Char) (f : Nat) (l m rest : List Char),
    (∀ c ∈ pre, nonBrace c = true) → match1At l = some (m, rest) →
    pre.length + 1 ≤ f →
    ∃ g, findMatches1 f (pre ++ l) = m :: g := by
  intro pre
  induction pre with
  | nil =>
    intro f l m rest hpre hm hf
    obtain ⟨f2, rfl⟩ : ∃ f3, f = f3 + 1 := ⟨f - 1, by omega⟩
    cases l with
    | nil => cases hm
    | cons c cs =>
      have hc : c = '{' := by
        by_cases hc : c = '{'
        · exact hc
        · rw [match1At_cons, if_neg hc] at hm; cases hm
      subst hc
      refine ⟨findMatches1 f2 rest, ?_⟩
      show findMatches1 (f2 + 1) ('{' :: cs) = _
      rw [findMatches1_succ_cons, if_pos rfl, hm]
  | cons a pre ih =>
    intro f l m rest hpre hm hf
    obtain ⟨f2, rfl⟩ : ∃ f3, f = f3 + 1 := ⟨f - 1, by omega⟩
    have ha : ¬a = '{' := by
      have := hpre a (by simp)
      unfold nonBrace at this
      simp only [Bool.and_eq_true, decide_eq_true_eq] at this
      exact this.1
    obtain ⟨g, hg⟩ := ih f2 l m rest (fun c hcmem => hpre c (by simp [hcmem])) hm
      (by simp only [List.length_cons] at hf; omega)
    refine ⟨g, ?_⟩
    show findMatches1 (f2 + 1) (a :: (pre ++ l)) = m :: g
    rw [findMatches1_succ_cons, if_neg ha, hg]

/-- Shape of a text that pattern 1 matches in full: it starts with an opening
brace and ends with a closing brace. -/
theorem match1At_self_shape (d : List Char) (hd : match1At d = some (d, [])) :
    (∃ dt, d = '{' :: dt) ∧ ∃ m0, d = m0 ++ ['}'] := by
  cases d with
  | nil => cases hd
  | cons c rest =>
    by_cases hc : c = '{'
    · subst hc
      refine ⟨⟨rest, rfl⟩, ?_⟩
      rw [match1At_cons, if_pos rfl] at hd
      split at hd
      · rename_i m r hmt
        obtain ⟨m0, hm0⟩ := matchTail_ends _ _ _ _ hmt
        simp only [Option.some.injEq, Prod.mk.injEq] at hd
        obtain ⟨h2, h3⟩ := hd
        refine ⟨'{' :: rest.takeWhile nonBrace ++ m0, ?_⟩
        rw [← h2, hm0]
        simp
      · cases hd
    · rw [match1At_cons, if_neg hc] at hd; cases hd

theorem mem_dropWhile_subset {α : Type} (p : α → Bool) :
    ∀ (l : List α) (c : α), c ∈ l.dropWhile p → c ∈ l := by
  intro l
  induction l with
  | nil => intro c h; simp [List.dropWhile_nil] at h
  | cons a l ih =>
    intro c h
    by_cases ha : p a = true
    · simp only [List.dropWhile_cons, ha, if_true] at h
      exact List.mem_cons_of_mem a (ih c h)
    · simp only [Bool.not_eq_true] at ha
      simp only [List.dropWhile_cons, ha] at h
      simpa using h

/-- Unfolding of `parseJsonOutputL`. -/
theorem parseJsonOutputL_eq (cs : List Char) :
    parseJsonOutputL cs =
      match jsonLoads (pyStrip cs) with
      | some v => some v
      | none =>
        match firstParse (findMatches1 ((pyStrip cs).length + 1) (pyStrip cs)) with
        | some v => some v
        | none => firstParse (findMatches2 ((pyStrip cs).length + 1) (pyStrip cs)) := rfl

/-- C6 as amended: a valid tool-call document `d` with at most one level of
brace nesting (it matches extraction pattern 1 in full), surrounded by
brace-free prose that leaves the whole trimmed text invalid as JSON, is
recovered exactly: the direct parse fails by hypothesis, pattern 1 finds `d`
as its first candidate, and the first parsing candidate is returned. -/
theorem parse_json_output_recovers_embedded
    (pre d post : List Char) (r : JValue)
    (hpre : ∀ c ∈ pre, nonBrace c = true)
    (hpost : ∀ c ∈ post, nonBrace c = true)
    (hd : match1At d = some (d, []))
    (hparse : jsonLoads d = some r)
    (hwhole : jsonLoads (pyStrip (pre ++ d ++ post)) = none) :
    parseJsonOutputL (pre ++ d ++ post) = some r := by
  obtain ⟨⟨dt, hdt⟩, ⟨m0, hm0⟩⟩ := match1At_self_shape d hd
  have hsplit : pyStrip (pre ++ d ++ post)
      = pre.dropWhile pyWs ++ d ++ (post.reverse.dropWhile pyWs).reverse := by
    unfold pyStrip
    have h1 : (pre ++ d ++ post).dropWhile pyWs = pre.dropWhile pyWs ++ (d ++ post) := by
      rw [show pre ++ d ++ post = pre ++ '{' :: (dt ++ post) from by rw [hdt]; simp]
      rw [dropWhile_append_of_head_neg pyWs pre '{' (dt ++ post) (by decide)]
      rw [hdt]
      simp
    rw [h1]
    rw [show pre.dropWhile pyWs ++ (d ++ post)
          = (pre.dropWhile pyWs ++ m0) ++ '}' :: post from by rw [hm0]; simp]
    rw [List.reverse_append]
    rw [show ('}' :: post).reverse = post.reverse ++ ['}'] from by simp]
    rw [List.append_assoc post.reverse ['}'], List.singleton_append]
    rw [dropWhile_append_of_head_neg pyWs post.reverse '}' _ (by decide)]
    rw [hm0]
    simp
  have hpre2 : ∀ c ∈ pre.dropWhile pyWs, nonBrace c = true :=
    fun c hc => hpre c (mem_dropWhile_subset pyWs pre c hc)
  have hpost2 : ∀ c ∈ (post.reverse.dropWhile pyWs).reverse, nonBrace c = true := by
    intro c hc
    rw [List.mem_reverse] at hc
    have := mem_dropWhile_subset pyWs post.reverse c hc
    rw [List.mem_reverse] at this
    exact hpost c this
  have hwhole2 : jsonLoads (pre.dropWhile pyWs ++ d ++ (post.reverse.dropWhile pyWs).reverse)
      = none := by rw [← hsplit]; exact hwhole
  have hm1 : match1At (d ++ (post.reverse.dropWhile pyWs).reverse)
      = some (d, (post.reverse.dropWhile pyWs).reverse) :=
    match1At_extend d _ hd hpost2
  obtain ⟨g, hg⟩ := findMatches1_prefix (pre.dropWhile pyWs)
    ((pre.dropWhile pyWs ++ (d ++ (post.reverse.dropWhile pyWs).reverse)).length + 1)
    (d ++ (post.reverse.dropWhile pyWs).reverse) d
    (post.reverse.dropWhile pyWs).reverse hpre2 hm1 (by simp)
  have hfp : firstParse (d :: g) = some r := by
    rw [show firstParse (d :: g)
          = match jsonLoads d with
            | some v => some v
            | none => firstParse g from rfl, hparse]
  rw [parseJsonOutputL_eq, hsplit, hwhole2]
  show (match firstParse (findMatches1
          ((pre.dropWhile pyWs ++ d ++ (post.reverse.dropWhile pyWs).reverse).length + 1)
          (pre.dropWhile pyWs ++ d ++ (post.reverse.dropWhile pyWs).reverse)) with
        | some v => some v
        | none => firstParse (findMatches2
            ((pre.dropWhile pyWs ++ d ++ (post.reverse.dropWhile pyWs).reverse).length + 1)
            (pre.dropWhile pyWs ++ d ++ (post.reverse.dropWhile pyWs).reverse))) = some r
  rw [List.append_assoc, hg, hfp]

/-- C6 counterexample: the prose `[` / `]` around a valid one-level tool-call
document is brace-free and is not itself valid JSON, yet the whole text *is*
valid JSON, so the first strategy returns the enclosing array rather than the
embedded record. -/
theorem parse_json_output_prose_array_counterexample :
    (∀ c ∈ ("[".data), nonBrace c = true) ∧
    (∀ c ∈ ("]".data), nonBrace c = true) ∧
    jsonLoadsStr "[" = none ∧
    jsonLoadsStr "]" = none ∧
    match1At ("\x7b\"tool\": \"flyTo\", \"arguments\": \x7b\x7d\x7d".data)
      = some ("\x7b\"tool\": \"flyTo\", \"arguments\": \x7b\x7d\x7d".data, []) ∧
    jsonLoadsStr "\x7b\"tool\": \"flyTo\", \"arguments\": \x7b\x7d\x7d"
      = some (.obj [("arguments", .obj []), ("tool", .str "flyTo")]) ∧
    parse_json_output "[\x7b\"tool\": \"flyTo\", \"arguments\": \x7b\x7d\x7d]"
      = some (.arr [.obj [("arguments", .obj []), ("tool", .str "flyTo")]]) ∧
    parse_json_output "[\x7b\"tool\": \"flyTo\", \"arguments\": \x7b\x7d\x7d]"
      ≠ some (.obj [("arguments", .obj []), ("tool", .str "flyTo")]) := by
  refine ⟨by decide, by decide, rfl, rfl, rfl, rfl, rfl, ?_⟩
  intro h
  rw [show parse_json_output "[\x7b\"tool\": \"flyTo\", \"arguments\": \x7b\x7d\x7d]"
        = some (.arr [.obj [("arguments", .obj []), ("tool", .str "flyTo")]]) from rfl] at h
  injection h with h2
  exact JValue.noConfusion h2

/-- Witness for the amended C6 at the spec example: prose around a valid
document, the whole text not being valid JSON, recovers the embedded
record. -/
theorem parse_json_output_recovers_embedded_witness :
    parse_json_output
        "Sure! \x7b\"tool\": \"flyTo\", \"arguments\": \x7b\"longitude\": 10, \"latitude\": 20\x7d\x7d Done."
      = some (.obj [("arguments", .obj [("latitude", .num ⟨20, 0⟩),
                                        ("longitude", .num ⟨10, 0⟩)]),
                    ("tool", .str "flyTo")]) :=
  parse_json_output_recovers_embedded ("Sure! ".data)
    ("\x7b\"tool\": \"flyTo\", \"arguments\": \x7b\"longitude\": 10, \"latitude\": 20\x7d\x7d".data)
    (" Done.".data) _ (by decide) (by decide) rfl rfl rfl

/-- Does a sample fall into the bucket keyed `k`? -/
def bucketIs (r : EvalResult) (k : KeyC) : Bool :=
  match bucketKeyE r with
  | .ok (some k2) => k2 = k
  | _ => false

/-- Effect of one `defaultdict` bump on the later lookup of any key. -/
theorem statCT_bumpStat (acc : List (KeyC × Nat × Nat)) (k : KeyC) (c : Bool) (k2 : KeyC) :
    statCT (bumpStat acc k c) k2 =
      if k = k2 then
        ((statCT acc k2).1 + (if c then 1 else 0), (statCT acc k2).2 + 1)
      else statCT acc k2 := by
  induction acc with
  | nil =>
    by_cases hk : k = k2
    · subst hk
      simp [bumpStat, statCT]
    · simp [bumpStat, statCT, hk]
  | cons e acc ih =>
    obtain ⟨k3, cor, tot⟩ := e
    by_cases h3 : k3 = k
    · subst h3
      by_cases hk : k3 = k2
      · subst hk
        simp [bumpStat, statCT]
      · simp [bumpStat, statCT, hk, if_neg (by exact hk)]
    · by_cases hk : k3 = k2
      · subst hk
        have hne : ¬k = k3 := fun he => h3 he.symm
        simp [bumpStat, statCT, h3, hne]
      · simp [bumpStat, statCT, h3, hk, ih]

/-- Lookup characterization of the `tool_stats` fold: each bucket's total
counts exactly the samples keyed to it, and its correct count counts those of
them with `tool_match` set. -/
theorem toolStatsAux_char : ∀ (rs : List EvalResult) (acc stats : List (KeyC × Nat × Nat)),
    toolStatsAux rs acc = .ok stats → ∀ k,
      (statCT stats k).1 = (statCT acc k).1
          + rs.countP (fun r => bucketIs r k && r.tool_match) ∧
      (statCT stats k).2 = (statCT acc k).2
          + rs.countP (fun r => bucketIs r k) := by
  intro rs
  induction rs with
  | nil =>
    intro acc stats h k
    cases h
    simp [List.countP_nil]
  | cons r rs ih =>
    intro acc stats h k
    rw [show toolStatsAux (r :: rs) acc
          = match bucketKeyE r with
            | .error e => .error e
            | .ok none => toolStatsAux rs acc
            | .ok (some k2) => toolStatsAux rs (bumpStat acc k2 r.tool_match) from rfl] at h
    cases hb : bucketKeyE r with
    | error e => rw [hb] at h; cases h
    | ok ko =>
      rw [hb] at h
      cases ko with
      | none =>
        obtain ⟨h1, h2⟩ := ih acc stats h k
        have hfalse : bucketIs r k = false := by unfold bucketIs; rw [hb]
        constructor
        · rw [h1, List.countP_cons]
          simp [hfalse]
        · rw [h2, List.countP_cons]
          simp [hfalse]
      | some k2 =>
        obtain ⟨h1, h2⟩ := ih (bumpStat acc k2 r.tool_match) stats h k
        have hbk : bucketIs r k = decide (k2 = k) := by unfold bucketIs; rw [hb]
        by_cases hkk : k2 = k
        · subst hkk
          rw [statCT_bumpStat acc k2 r.tool_match k2, if_pos rfl] at h1 h2
          constructor
          · rw [h1, List.countP_cons]
            cases htm : r.tool_match <;> simp [hbk, htm] <;> omega
          · rw [h2, List.countP_cons]
            simp [hbk]
            omega
        · rw [statCT_bumpStat acc k2 r.tool_match k, if_neg hkk] at h1 h2
          constructor
          · rw [h1, List.countP_cons]
            simp [hbk, hkk]
          · rw [h2, List.countP_cons]
            simp [hbk, hkk]

/-- C2 counterexample: a sample whose expected text fails to extract is not
attributed to the `"unknown"` bucket — it is skipped, landing in no bucket at
all (the statistics table stays empty). -/
theorem toolStats_unparsed_sample_unbucketed :
    bucketKeyE ⟨"i", "not json at all", "x", false, false, none, false⟩ = .ok none ∧
    toolStats [⟨"i", "not json at all", "x", false, false, none, false⟩] = .ok [] ∧
    statCT [] (.kstr "unknown") = (0, 0) :=
  ⟨rfl, rfl, rfl⟩

/-- C2 as amended: whenever the `tool_stats` loop completes, every sample
whose expected text extracts to a truthy mapping is counted in exactly one
bucket — keyed by the mapping's `tool` value, `"unknown"` when the field is
missing — while samples whose expected text fails to extract, or extracts to
a falsy value such as the empty mapping, are counted in no bucket; a sample
adds to its bucket's correct count iff its `tool_match` is true. -/
theorem toolStats_bucket_characterization (rs : List EvalResult)
    (stats : List (KeyC × Nat × Nat)) (h : toolStats rs = .ok stats) (k : KeyC) :
    (statCT stats k).2 = rs.countP (fun r => bucketIs r k) ∧
    (statCT stats k).1 = rs.countP (fun r => bucketIs r k && r.tool_match) := by
  obtain ⟨h1, h2⟩ := toolStatsAux_char rs [] stats h k
  constructor
  · rw [h2]; simp [statCT]
  · rw [h1]; simp [statCT]

/-- Three-sample batch of the spec example (expected tools flyTo, flyTo,
zoom; only the first sample's tool matched). -/
def exS1 : EvalResult := ⟨"i1", "\x7b\"tool\": \"flyTo\"\x7d", "x", true, true, none, false⟩

/-- Second sample of the batch. -/
def exS2 : EvalResult := ⟨"i2", "\x7b\"tool\": \"flyTo\"\x7d", "x", false, true, none, false⟩

/-- Third sample of the batch. -/
def exS3 : EvalResult := ⟨"i3", "\x7b\"tool\": \"zoom\"\x7d", "x", false, true, none, false⟩

/-- Witness for the amended C2 at the spec's three-sample batch, whose table
is flyTo ↦ (1 correct, 2 total), zoom ↦ (0 correct, 1 total). -/
theorem toolStats_bucket_characterization_witness :
    ((statCT [(.kstr "flyTo", 1, 2), (.kstr "zoom", 0, 1)] (.kstr "flyTo")).2
        = [exS1, exS2, exS3].countP (fun r => bucketIs r (.kstr "flyTo")) ∧
      (statCT [(.kstr "flyTo", 1, 2), (.kstr "zoom", 0, 1)] (.kstr "flyTo")).1
        = [exS1, exS2, exS3].countP (fun r => bucketIs r (.kstr "flyTo") && r.tool_match)) :=
  toolStats_bucket_characterization [exS1, exS2, exS3]
    [(.kstr "flyTo", 1, 2), (.kstr "zoom", 0, 1)] rfl (.kstr "flyTo")

theorem char_toNat_inj {a b : Char} (h : a.toNat = b.toNat) : a = b :=
  Char.ext (UInt32.ext h)

theorem charsLt_asymm : ∀ (a b : List Char),
    charsLt a b = true → charsLt b a = true → False := by
  intro a
  induction a with
  | nil => intro b h1 h2; cases b <;> simp [charsLt] at h1 h2
  | cons x xs ih =>
    intro b h1 h2
    cases b with
    | nil => simp [charsLt] at h1
    | cons y ys =>
      by_cases hxy : x.toNat < y.toNat
      · unfold charsLt at h2
        rw [if_neg (show ¬y.toNat < x.toNat by omega), if_pos hxy] at h2
        cases h2
      · by_cases hyx : y.toNat < x.toNat
        · unfold charsLt at h1
          rw [if_neg hxy, if_pos hyx] at h1
          cases h1
        · unfold charsLt at h1 h2
          rw [if_neg hxy, if_neg hyx] at h1
          rw [if_neg hyx, if_neg hxy] at h2
          exact ih ys h1 h2

theorem charsLt_trans : ∀ (a b c : List Char),
    charsLt a b = true → charsLt b c = true → charsLt a c = true := by
  intro a
  induction a with
  | nil =>
    intro b c h1 h2
    cases b with
    | nil => simp [charsLt] at h1
    | cons y ys =>
      cases c with
      | nil => simp [charsLt] at h2
      | cons z zs => simp [charsLt]
  | cons x xs ih =>
    intro b c h1 h2
    cases b with
    | nil => simp [charsLt] at h1
    | cons y ys =>
      cases c with
      | nil => simp [charsLt] at h2
      | cons z zs =>
        unfold charsLt at h1 h2 ⊢
        by_cases hxy : x.toNat < y.toNat
        · by_cases hyz : y.toNat < z.toNat
          · rw [if_pos (by omega)]
          · rw [if_neg hyz] at h2
            by_cases hzy : z.toNat < y.toNat
            · rw [if_pos hzy] at h2; cases h2
            · rw [if_pos (by omega)]
        · rw [if_neg hxy] at h1
          by_cases hyx : y.toNat < x.toNat
          · rw [if_pos hyx] at h1; cases h1
          · rw [if_neg hyx] at h1
            by_cases hyz : y.toNat < z.toNat
            · rw [if_pos (by omega)]
            · rw [if_neg hyz] at h2
              by_cases hzy : z.toNat < y.toNat
              · rw [if_pos hzy] at h2; cases h2
              · rw [if_neg hzy] at h2
                rw [if_neg (by omega), if_neg (by omega)]
                exact ih ys zs h1 h2

theorem charsLt_connex : ∀ (a b : List Char), a ≠ b →
    charsLt a b = true ∨ charsLt b a = true := by
  intro a
  induction a with
  | nil =>
    intro b hne
    cases b with
    | nil => exact absurd rfl hne
    | cons y ys => left; simp [charsLt]
  | cons x xs ih =>
    intro b hne
    cases b with
    | nil => right; simp [charsLt]
    | cons y ys =>
      by_cases hxy : x.toNat < y.toNat
      · left; unfold charsLt; rw [if_pos hxy]
      · by_cases hyx : y.toNat < x.toNat
        · right; unfold charsLt; rw [if_pos hyx]
        · have hx : x = y := char_toNat_inj (by omega)
          subst hx
          have hne2 : xs ≠ ys := fun h => hne (by rw [h])
          rcases ih ys hne2 with h | h
          · left; unfold charsLt; rw [if_neg hxy, if_neg hxy]; exact h
          · right; unfold charsLt; rw [if_neg hxy, if_neg hxy]; exact h

theorem strLe_refl (a : String) : strLe a a = true := by
  unfold strLe
  simp

theorem strLt_eq_false_self (a : String) : strLt a a = false := by
  unfold strLt
  cases h : charsLt a.data a.data with
  | false => rfl
  | true => exact absurd (charsLt_asymm _ _ h h) (fun f => f)

theorem string_eq_of_data_eq {a b : String} (h : a.data = b.data) : a = b := by
  cases a; cases b; exact congrArg String.mk h

theorem strLe_total (a b : String) : strLe a b = true ∨ strLe b a = true := by
  by_cases hab : a = b
  · subst hab; left; exact strLe_refl a
  · have hne : a.data ≠ b.data := fun h => hab (string_eq_of_data_eq h)
    rcases charsLt_connex a.data b.data hne with h | h
    · left; unfold strLe strLt; rw [h]; simp
    · right; unfold strLe strLt; rw [h]; simp

theorem strLe_trans {a b c : String} (h1 : strLe a b = true) (h2 : strLe b c = true) :
    strLe a c = true := by
  unfold strLe at h1 h2 ⊢
  rcases Bool.or_eq_true_iff.mp h1 with he1 | hl1
  · have : a = b := by simpa using he1
    subst this
    exact h2
  · rcases Bool.or_eq_true_iff.mp h2 with he2 | hl2
    · have : b = c := by simpa using he2
      subst this
      rw [hl1]
      simp
    · have : strLt a c = true := charsLt_trans _ _ _ hl1 hl2
      rw [this]
      simp

theorem strLt_of_strLe_of_ne {a b : String} (h : strLe a b = true) (hne : a ≠ b) :
    strLt a b = true := by
  unfold strLe at h
  rcases Bool.or_eq_true_iff.mp h with he | hl
  · exact absurd (by simpa using he) hne
  · exact hl

/-- Strict key order used to identify the sorted per-tool tables. -/
def stLtStr (a b : KeyC × Nat × Nat) : Prop := strLt (keyCStr a.1) (keyCStr b.1) = true

instance instIsTotalStLeStr : IsTotal (KeyC × Nat × Nat) stLeStr :=
  ⟨fun a b => strLe_total (keyCStr a.1) (keyCStr b.1)⟩

instance instIsTransStLeStr : IsTrans (KeyC × Nat × Nat) stLeStr :=
  ⟨fun _ _ _ h1 h2 => strLe_trans h1 h2⟩

instance instIsAntisymmStLtStr : IsAntisymm (KeyC × Nat × Nat) stLtStr :=
  ⟨fun _ _ h1 h2 => absurd (charsLt_asymm _ _ h1 h2) not_false⟩

/-- Keys of the statistics table, in insertion order. -/
def statKeys (s : List (KeyC × Nat × Nat)) : List KeyC := s.map Prod.fst

theorem statKeys_bumpStat (s : List (KeyC × Nat × Nat)) (k : KeyC) (c : Bool) :
    statKeys (bumpStat s k c) = if k ∈ statKeys s then statKeys s else statKeys s ++ [k] := by
  induction s with
  | nil => simp [bumpStat, statKeys]
  | cons e s ih =>
    obtain ⟨k2, cor, tot⟩ := e
    by_cases hk : k2 = k
    · subst hk
      simp [bumpStat, statKeys]
    · have hne : ¬k = k2 := fun h => hk h.symm
      simp only [bumpStat, if_neg hk, statKeys, List.map_cons] at ih ⊢
      rw [ih]
      by_cases hmem : k ∈ s.map Prod.fst
      · rw [if_pos hmem, if_pos (List.mem_cons_of_mem _ hmem)]
      · rw [if_neg hmem, if_neg (fun hm => by
          rcases List.mem_cons.mp hm with h | h
          · exact hne h
          · exact hmem h)]
        simp

theorem toolStatsAux_nodup_keys : ∀ (rs : List EvalResult)
    (acc stats : List (KeyC × Nat × Nat)), (statKeys acc).Nodup →
    toolStatsAux rs acc = .ok stats → (statKeys stats).Nodup := by
  intro rs
  induction rs with
  | nil => intro acc stats hnd h; cases h; exact hnd
  | cons r rs ih =>
    intro acc stats hnd h
    rw [show toolStatsAux (r :: rs) acc
          = match bucketKeyE r with
            | .error e => .error e
            | .ok none => toolStatsAux rs acc
            | .ok (some k2) => toolStatsAux rs (bumpStat acc k2 r.tool_match) from rfl] at h
    cases hb : bucketKeyE r with
    | error e => rw [hb] at h; cases h
    | ok ko =>
      rw [hb] at h
      cases ko with
      | none => exact ih acc stats hnd h
      | some k2 =>
        refine ih _ stats ?_ h
        rw [statKeys_bumpStat]
        by_cases hmem : k2 ∈ statKeys acc
        · rw [if_pos hmem]; exact hnd
        · rw [if_neg hmem]
          simp [List.nodup_append, hnd, hmem]

theorem toolStatsAux_total_pos : ∀ (rs : List EvalResult)
    (acc stats : List (KeyC × Nat × Nat)), (∀ e ∈ acc, 1 ≤ e.2.2) →
    toolStatsAux rs acc = .ok stats → ∀ e ∈ stats, 1 ≤ e.2.2 := by
  intro rs
  induction rs with
  | nil => intro acc stats hpos h; cases h; exact hpos
  | cons r rs ih =>
    intro acc stats hpos h
    rw [show toolStatsAux (r :: rs) acc
          = match bucketKeyE r with
            | .error e => .error e
            | .ok none => toolStatsAux rs acc
            | .ok (some k2) => toolStatsAux rs (bumpStat acc k2 r.tool_match) from rfl] at h
    cases hb : bucketKeyE r with
    | error e => rw [hb] at h; cases h
    | ok ko =>
      rw [hb] at h
      cases ko with
      | none => exact ih acc stats hpos h
      | some k2 =>
        refine ih _ stats ?_ h
        clear h hb ih
        induction acc with
        | nil => simp [bumpStat]
        | cons e acc ih2 =>
          obtain ⟨k3, cor, tot⟩ := e
          by_cases hk : k3 = k2
          · subst hk
            simp only [bumpStat, if_pos rfl]
            intro e2 he2
            rcases List.mem_cons.mp he2 with he2 | he2
            · subst he2; simp
            · exact hpos e2 (List.mem_cons_of_mem _ he2)
          · simp only [bumpStat, if_neg hk]
            intro e2 he2
            rcases List.mem_cons.mp he2 with he2 | he2
            · subst he2; exact hpos _ (by simp)
            · exact ih2 (fun e3 he3 => hpos e3 (List.mem_cons_of_mem _ he3)) e2 he2

theorem statCT_eq_of_mem : ∀ (s : List (KeyC × Nat × Nat)) (e : KeyC × Nat × Nat),
    (statKeys s).Nodup → e ∈ s → statCT s e.1 = e.2 := by
  intro s
  induction s with
  | nil => intro e _ he; cases he
  | cons e2 s ih =>
    intro e hnd he
    obtain ⟨k2, cor, tot⟩ := e2
    rcases List.mem_cons.mp he with he | he
    · subst he
      simp [statCT]
    · have hk : ¬k2 = e.1 := by
        intro hk
        have : e.1 ∈ statKeys s := by
          simp only [statKeys, List.mem_map]
          exact ⟨e, he, rfl⟩
        rw [← hk] at this
        simp only [statKeys, List.map_cons, List.nodup_cons] at hnd
        exact hnd.1 this
      simp only [statCT, if_neg hk]
      exact ih e (by simpa [statKeys, List.nodup_cons] using hnd.of_cons) he

theorem mem_of_statCT : ∀ (s : List (KeyC × Nat × Nat)) (k : KeyC) (c t : Nat),
    statCT s k = (c, t) → t ≠ 0 → (k, c, t) ∈ s := by
  intro s
  induction s with
  | nil =>
    intro k c t h ht
    simp only [statCT] at h
    cases h
    exact absurd rfl ht
  | cons e s ih =>
    intro k c t h ht
    obtain ⟨k2, cor, tot⟩ := e
    by_cases hk : k2 = k
    · subst hk
      simp only [statCT, if_pos rfl] at h
      cases h
      exact List.mem_cons_self _ _
    · simp only [statCT, if_neg hk] at h
      exact List.mem_cons_of_mem _ (ih k c t h ht)

/-- Bucket lookups of the per-tool table agree across permutations of the
sample list. -/
theorem toolStats_lookup_eq (l1 l2 : List EvalResult)
    (s1 s2 : List (KeyC × Nat × Nat)) (hperm : l1.Perm l2)
    (h1 : toolStats l1 = .ok s1) (h2 : toolStats l2 = .ok s2) :
    ∀ k, statCT s1 k = statCT s2 k := by
  intro k
  obtain ⟨a1, b1⟩ := toolStatsAux_char l1 [] s1 h1 k
  obtain ⟨a2, b2⟩ := toolStatsAux_char l2 [] s2 h2 k
  have e1 := hperm.countP_eq (fun r => bucketIs r k && r.tool_match)
  have e2 := hperm.countP_eq (fun r => bucketIs r k)
  have hfst : (statCT s1 k).1 = (statCT s2 k).1 := by rw [a1, a2, e1]
  have hsnd : (statCT s1 k).2 = (statCT s2 k).2 := by rw [b1, b2, e2]
  cases hx : statCT s1 k
  cases hy : statCT s2 k
  rw [hx, hy] at hfst hsnd
  simp_all

/-- Per-tool tables of permuted sample lists are permutations of each
other. -/
theorem toolStats_entries_perm (l1 l2 : List EvalResult)
    (s1 s2 : List (KeyC × Nat × Nat)) (hperm : l1.Perm l2)
    (h1 : toolStats l1 = .ok s1) (h2 : toolStats l2 = .ok s2) :
    s1.Perm s2 ∧ (statKeys s1).Nodup := by
  have hnd1 : (statKeys s1).Nodup :=
    toolStatsAux_nodup_keys l1 [] s1 (by simp [statKeys]) h1
  have hnd2 : (statKeys s2).Nodup :=
    toolStatsAux_nodup_keys l2 [] s2 (by simp [statKeys]) h2
  have hpos1 := toolStatsAux_total_pos l1 [] s1 (by simp) h1
  have hpos2 := toolStatsAux_total_pos l2 [] s2 (by simp) h2
  have hlook := toolStats_lookup_eq l1 l2 s1 s2 hperm h1 h2
  refine ⟨(List.perm_ext_iff_of_nodup (List.Nodup.of_map Prod.fst hnd1)
    (List.Nodup.of_map Prod.fst hnd2)).mpr fun e => ?_, hnd1⟩
  constructor
  · intro he
    have hct : statCT s1 e.1 = e.2 := statCT_eq_of_mem s1 e hnd1 he
    have hct2 : statCT s2 e.1 = (e.2.1, e.2.2) := by
      rw [← hlook e.1, hct]
    have hpos : e.2.2 ≠ 0 := by
      have := hpos1 e he
      omega
    have := mem_of_statCT s2 e.1 e.2.1 e.2.2 hct2 hpos
    simpa using this
  · intro he
    have hct : statCT s2 e.1 = e.2 := statCT_eq_of_mem s2 e hnd2 he
    have hct2 : statCT s1 e.1 = (e.2.1, e.2.2) := by
      rw [hlook e.1, hct]
    have hpos : e.2.2 ≠ 0 := by
      have := hpos2 e he
      omega
    have := mem_of_statCT s1 e.1 e.2.1 e.2.2 hct2 hpos
    simpa using this

/-- With homogeneous string keys, `sorted` takes the lexicographic branch. -/
theorem sortItems_all_str (s : List (KeyC × Nat × Nat))
    (hstr : (s.all fun e => match e.1 with | KeyC.kstr _ => true | _ => false) = true) :
    sortItems s = .ok (List.insertionSort stLeStr s) := by
  unfold sortItems
  rw [if_pos hstr]

/-- Sorted tables of permuted entry lists with distinct string keys are
equal. -/
theorem insertionSort_str_eq (s1 s2 : List (KeyC × Nat × Nat))
    (hp : s1.Perm s2) (hnd : (statKeys s1).Nodup)
    (hstr : ∀ e ∈ s1, (match e.1 with | KeyC.kstr _ => true | _ => false) = true) :
    List.insertionSort stLeStr s1 = List.insertionSort stLeStr s2 := by
  have hnd2 : (statKeys s2).Nodup := ((hp.map Prod.fst).nodup_iff).mp hnd
  have hstr2 : ∀ e ∈ s2, (match e.1 with | KeyC.kstr _ => true | _ => false) = true :=
    fun e he => hstr e (hp.mem_iff.mpr he)
  have hperm12 : (List.insertionSort stLeStr s1).Perm (List.insertionSort stLeStr s2) :=
    (List.perm_insertionSort stLeStr s1).trans
      (hp.trans (List.perm_insertionSort stLeStr s2).symm)
  have keyinj : ∀ (s : List (KeyC × Nat × Nat)), (statKeys s).Nodup →
      (∀ e ∈ s, (match e.1 with | KeyC.kstr _ => true | _ => false) = true) →
      List.Pairwise (fun a b : KeyC × Nat × Nat => keyCStr a.1 ≠ keyCStr b.1) s := by
    intro s hndk hs
    have hpw : List.Pairwise (fun a b : KeyC × Nat × Nat => a.1 ≠ b.1) s := by
      have hthis : List.Pairwise Ne (statKeys s) := hndk
      rw [statKeys, List.pairwise_map] at hthis
      exact hthis
    refine hpw.imp_of_mem ?_
    intro a b ha hb hne hkeq
    have hsa := hs a ha
    have hsb := hs b hb
    cases hka : a.1 with
    | kstr sa =>
      cases hkb : b.1 with
      | kstr sb =>
        rw [hka, hkb] at hkeq hne
        simp only [keyCStr] at hkeq
        exact hne (by rw [hkeq])
      | knull => rw [hkb] at hsb; simp at hsb
      | knum d => rw [hkb] at hsb; simp at hsb
    | knull => rw [hka] at hsa; simp at hsa
    | knum d => rw [hka] at hsa; simp at hsa
  have strict : ∀ (s : List (KeyC × Nat × Nat)), (statKeys s).Nodup →
      (∀ e ∈ s, (match e.1 with | KeyC.kstr _ => true | _ => false) = true) →
      List.Pairwise stLtStr (List.insertionSort stLeStr s) := by
    intro s hndk hs
    have hsorted : List.Sorted stLeStr (List.insertionSort stLeStr s) :=
      List.sorted_insertionSort stLeStr s
    have hpne : List.Pairwise (fun a b : KeyC × Nat × Nat => keyCStr a.1 ≠ keyCStr b.1)
        (List.insertionSort stLeStr s) :=
      ((List.perm_insertionSort stLeStr s).pairwise_iff
        (fun h he => h he.symm)).mpr (keyinj s hndk hs)
    exact (hsorted.and hpne).imp fun hab =>
      strLt_of_strLe_of_ne hab.1 hab.2
  exact List.eq_of_perm_of_sorted hperm12 (strict s1 hnd hstr) (strict s2 hnd2 hstr2)

/-- Every `sorted` output is a permutation of its input table. -/
theorem sortItems_perm (s out : List (KeyC × Nat × Nat)) (h : sortItems s = .ok out) :
    out.Perm s := by
  unfold sortItems at h
  split_ifs at h
  · cases h; exact List.perm_insertionSort _ s
  · cases h; exact List.perm_insertionSort _ s
  · cases h; exact List.Perm.refl _

/-- C8: the aggregation of `print_results` is a pure, order-insensitive
function of the sample sequence.  For permuted inputs on which it succeeds,
the totals, the three headline counts and percentage rates, the multiset of
coordinate errors and their mean, and the whole sorted per-tool table (for
string tool identifiers, the case `sorted` accepts beyond trivial tables)
coincide, and the reported per-tool order is lexicographically sorted rather
than insertion-ordered. -/
theorem print_results_order_insensitive (l1 l2 : List EvalResult) (hperm : l1.Perm l2)
    (rep1 rep2 : Report) (h1 : print_results l1 = .ok rep1)
    (h2 : print_results l2 = .ok rep2)
    (hstr : (rep1.per_tool.all fun e =>
      match e.1 with | KeyC.kstr _ => true | _ => false) = true) :
    rep1.total = rep2.total ∧
    rep1.tool_correct = rep2.tool_correct ∧
    rep1.json_valid_count = rep2.json_valid_count ∧
    rep1.exact_count = rep2.exact_count ∧
    rep1.coord_errors.Perm rep2.coord_errors ∧
    rep1.avg_coord_error = rep2.avg_coord_error ∧
    rep1.tool_acc_pct = rep2.tool_acc_pct ∧
    rep1.json_valid_pct = rep2.json_valid_pct ∧
    rep1.exact_pct = rep2.exact_pct ∧
    rep1.per_tool = rep2.per_tool ∧
    List.Pairwise stLeStr rep1.per_tool := by
  unfold print_results at h1 h2
  simp only [] at h1 h2
  split at h1
  · cases h1
  · rename_i stats1 hA1
    split at h1
    · cases h1
    · rename_i hT1
      split at h1
      · cases h1
      · rename_i sorted1 hS1
        cases h1
        split at h2
        · cases h2
        · rename_i stats2 hA2
          split at h2
          · cases h2
          · rename_i hT2
            split at h2
            · cases h2
            · rename_i sorted2 hS2
              cases h2
              have hcp : (l1.filterMap (·.coord_error)).Perm
                  (l2.filterMap (·.coord_error)) := hperm.filterMap _
              have hlen : l1.length = l2.length := hperm.length_eq
              have hclen : (l1.filterMap (·.coord_error)).length
                  = (l2.filterMap (·.coord_error)).length := hcp.length_eq
              have hsum : ((l1.filterMap (·.coord_error)).map DecNum.toRat).sum
                  = ((l2.filterMap (·.coord_error)).map DecNum.toRat).sum :=
                (hcp.map DecNum.toRat).sum_eq
              obtain ⟨hsp, hnd1⟩ := toolStats_entries_perm l1 l2 stats1 stats2 hperm hA1 hA2
              have hstr1 : ∀ e ∈ stats1,
                  (match e.1 with | KeyC.kstr _ => true | _ => false) = true := by
                intro e he
                have hmem : e ∈ sorted1 :=
                  ((sortItems_perm stats1 sorted1 hS1).mem_iff).mpr he
                exact List.all_eq_true.mp hstr e hmem
              have hS1b : sortItems stats1 = .ok (List.insertionSort stLeStr stats1) :=
                sortItems_all_str stats1 (List.all_eq_true.mpr hstr1)
              have hsorted1 : sorted1 = List.insertionSort stLeStr stats1 := by
                rw [hS1] at hS1b
                exact (Except.ok.injEq _ _).mp hS1b.symm |>.symm
              have hstr2 : ∀ e ∈ stats2,
                  (match e.1 with | KeyC.kstr _ => true | _ => false) = true :=
                fun e he => hstr1 e (hsp.mem_iff.mpr he)
              have hS2b : sortItems stats2 = .ok (List.insertionSort stLeStr stats2) :=
                sortItems_all_str stats2 (List.all_eq_true.mpr hstr2)
              have hsorted2 : sorted2 = List.insertionSort stLeStr stats2 := by
                rw [hS2] at hS2b
                exact (Except.ok.injEq _ _).mp hS2b.symm |>.symm
              have hsorteq : sorted1 = sorted2 := by
                rw [hsorted1, hsorted2]
                exact insertionSort_str_eq stats1 stats2 hsp hnd1 hstr1
              have hie : (l1.filterMap (·.coord_error)).isEmpty
                  = (l2.filterMap (·.coord_error)).isEmpty := by
                cases hx : l1.filterMap (·.coord_error) <;>
                  cases hy : l2.filterMap (·.coord_error) <;>
                  rw [hx, hy] at hclen <;> simp_all
              refine ⟨hlen, hperm.countP_eq _, hperm.countP_eq _, hperm.countP_eq _,
                hcp, ?_, ?_, ?_, ?_, hsorteq, ?_⟩
              · show (if (l1.filterMap (·.coord_error)).isEmpty then none
                      else some (((l1.filterMap (·.coord_error)).map DecNum.toRat).sum
                        / ((l1.filterMap (·.coord_error)).length : ℚ))) = _
                rw [hie, hsum, hclen]
              · show 100 * (l1.countP (·.tool_match) : ℚ) / (l1.length : ℚ) = _
                rw [hperm.countP_eq, hlen]
              · show 100 * (l1.countP (·.json_valid) : ℚ) / (l1.length : ℚ) = _
                rw [hperm.countP_eq, hlen]
              · show 100 * (l1.countP (·.exact_match) : ℚ) / (l1.length : ℚ) = _
                rw [hperm.countP_eq, hlen]
              · show List.Pairwise stLeStr sorted1
                rw [hsorted1]
                exact List.sorted_insertionSort stLeStr stats1

/-- The report both orderings of the two-sample run produce. -/
def exRepC8 : Report :=
  ⟨2, 1, 2, 0, [], none,
   100 * ((1 : Nat) : ℚ) / ((2 : Nat) : ℚ),
   100 * ((2 : Nat) : ℚ) / ((2 : Nat) : ℚ),
   100 * ((0 : Nat) : ℚ) / ((2 : Nat) : ℚ),
   [(KeyC.kstr "flyTo", 1, 1), (KeyC.kstr "zoom", 0, 1)]⟩

/-- Witness: on the two-sample run and its swap, `print_results` succeeds and
the order-insensitivity theorem applies, giving equal sorted tables in
lexicographic order. -/
theorem print_results_order_insensitive_witness :
    print_results [exS1, exS3] = Except.ok exRepC8 ∧
    print_results [exS3, exS1] = Except.ok exRepC8 ∧
    List.Pairwise stLeStr exRepC8.per_tool := by
  have h := print_results_order_insensitive [exS1, exS3] [exS3, exS1]
    (List.Perm.swap exS3 exS1 []) exRepC8 exRepC8 rfl rfl rfl
  exact ⟨rfl, rfl, h.2.2.2.2.2.2.2.2.2.2⟩
